import Mathlib

set_option maxHeartbeats 1000000

/-!
Verification of the PLM BOM import tool (`plm_bom_import_tool.py`).

The Python module is shallowly embedded below.  Spreadsheet cells are
modelled by `Cell` (a cell is Python `None`, a string, or a number; numbers
are modelled as rationals).  The external collaborators — Python's `float`
parser, the string form of numeric cells, the item catalog, the document
store — are passed in explicitly, so every definition is executable.
-/

/-- A raw spreadsheet cell: Python `None`, a string, or a numeric value. -/
inductive Cell where
  | none
  | str (s : String)
  | num (q : Rat)
  deriving DecidableEq, Repr

/-- Python truthiness of a cell, as used by `any(row)`:
`None`, `""` and `0` are falsy. -/
def cellTruthy : Cell → Bool
  | Cell.none => false
  | Cell.str s => s ≠ ""
  | Cell.num q => q ≠ 0

/-- `frappe.utils.cstr` applied to `row_data.get(...)`: `None` and missing
values become `""`, strings are kept, numeric cells are rendered by the
collaborator `numRepr` (Python's `str` on a float). -/
def cstr (numRepr : Rat → String) : Option Cell → String
  | Option.none => ""
  | some Cell.none => ""
  | some (Cell.str s) => s
  | some (Cell.num q) => numRepr q

/-- Python `str.strip()` with no argument: drop whitespace from both ends
(whitespace is modelled by `Char.isWhitespace`). -/
def pyStrip (s : String) : String :=
  ⟨(((s.data.dropWhile Char.isWhitespace).reverse.dropWhile Char.isWhitespace).reverse)⟩

/-- Python `str.lower()` (ASCII case folding suffices here). -/
def pyLower (s : String) : String :=
  ⟨s.data.map Char.toLower⟩

/-- `str.replace(a, b)` for one-character patterns, the only form the
source uses (inside `frappe.scrub`). -/
def replaceChar (a b : Char) (s : String) : String :=
  ⟨s.data.map (fun c => if c = a then b else c)⟩

/-- Helper of `pySplit`: collect maximal runs of non-whitespace. -/
def wordsAux : List Char → List Char → List String
  | [], acc => if acc = [] then [] else [⟨acc.reverse⟩]
  | c :: cs, acc =>
    if c.isWhitespace then
      if acc = [] then wordsAux cs [] else String.mk acc.reverse :: wordsAux cs []
    else wordsAux cs (c :: acc)

/-- Python `str.split()` with no separator: split on runs of whitespace,
dropping empty pieces. -/
def pySplit (s : String) : List String :=
  wordsAux s.data []

/-- Truncation toward zero, as Python's `int(float(...))` does. -/
def truncRat (q : Rat) : Int :=
  if 0 ≤ q then q.floor else q.ceil

/-- `frappe.utils.flt` on a string: parse via the collaborator `pf`
(Python `float`), returning 0 on a parse failure. -/
def fltStr (pf : String → Option Rat) (s : String) : Rat :=
  (pf s).getD 0

/-- `frappe.utils.cint` on a cell value: `int(float(s))`, with 0 on
failure (including `None`/missing values). -/
def cintCell (pf : String → Option Rat) : Option Cell → Int
  | Option.none => 0
  | some Cell.none => 0
  | some (Cell.str s) => ((pf s).map truncRat).getD 0
  | some (Cell.num q) => truncRat q

/-- The unit hint extracted by `parse_qty_and_uom`: for a string cell whose
stripped text has at least two whitespace-separated tokens, the second
token (`parts[1]`); in every other case `""`. -/
def qtyUom (v : Option Cell) : String :=
  match v with
  | some (Cell.str s) =>
    match pySplit (pyStrip s) with
    | _ :: u :: _ => u
    | _ => ""
  | _ => ""

/-- The numeric value `qty` computed inside `parse_qty_and_uom` before the
final positivity clamp: `flt` of the first whitespace token for string
cells (0 for an empty/whitespace-only string), the number itself for a
numeric cell, 0 for `None` or a missing value. -/
def rawQty (pf : String → Option Rat) (v : Option Cell) : Rat :=
  match v with
  | some (Cell.str s) =>
    match pySplit (pyStrip s) with
    | t :: _ => fltStr pf t
    | [] => 0
  | some (Cell.num q) => q
  | _ => 0

/-- `parse_qty_and_uom`: returns `(qty if qty > 0 else 1, uom)`. -/
def parse_qty_and_uom (pf : String → Option Rat) (v : Option Cell) : Rat × String :=
  let qty := rawQty pf v
  (if qty > 0 then qty else 1, qtyUom v)

/-- `normalize_qty`: re-clamps the quantity returned by `parse_qty_and_uom`. -/
def normalize_qty (pf : String → Option Rat) (v : Option Cell) : Rat :=
  let qty := (parse_qty_and_uom pf v).1
  if qty > 0 then qty else 1

/-- `map_qty_uom`: recognize a small set of count-unit synonyms. -/
def map_qty_uom (uom : String) : String :=
  let u := pyLower (pyStrip uom)
  if u = "each" ∨ u = "ea" ∨ u = "nos" ∨ u = "no" ∨ u = "pcs" ∨ u = "pc" then "Nos"
  else ""

/-- `frappe.scrub`: replace spaces and hyphens with underscores, lowercase. -/
def scrub (s : String) : String :=
  pyLower (replaceChar '-' '_' (replaceChar ' ' '_' s))

/-- The fixed alias table of `build_header_map`. -/
def aliasLookup (s : String) : Option String :=
  if s = "number" ∨ s = "item_code" ∨ s = "code" then some "item_code"
  else if s = "name" ∨ s = "item_name" then some "item_name"
  else if s = "description" then some "description"
  else if s = "gst_hsn_code" ∨ s = "gst_hsn" ∨ s = "hsn_code" then some "gst_hsn_code"
  else if s = "material" then some "custom_material"
  else if s = "length" then some "custom_length"
  else if s = "width" then some "custom_width"
  else if s = "height" then some "custom_height"
  else if s = "diameter" then some "custom_diameter"
  else if s = "thickness" then some "custom_thickness"
  else if s = "weight" then some "custom_weight"
  else if s = "part_type" ∨ s = "parttype" ∨ s = "item_group" then some "item_group"
  else if s = "uom" ∨ s = "stock_uom" then some "stock_uom"
  else if s = "structure_level" ∨ s = "level" ∨ s = "structurelevel" then some "structure_level"
  else if s = "qty" ∨ s = "quantity" then some "qty"
  else Option.none

/-- `build_header_map`: map each column index whose scrubbed header is a
known alias to its canonical field name, in column order. -/
def build_header_map (numRepr : Rat → String) (headers : List Cell) : List (Nat × String) :=
  headers.enum.filterMap (fun p =>
    (aliasLookup (scrub (cstr numRepr (some p.2)))).map (fun f => (p.1, f)))

/-- Update one key of a field dictionary, Python-dict style (replace an
existing entry, else append). -/
def dictSet (d : List (String × Cell)) (k : String) (v : Cell) : List (String × Cell) :=
  if d.any (fun p => p.1 == k) then d.map (fun p => if p.1 == k then (k, v) else p)
  else d ++ [(k, v)]

/-- `value.strip()` applied only to string cells, as in `extract_row_data`. -/
def stripCell : Cell → Cell
  | Cell.str s => Cell.str (pyStrip s)
  | c => c

/-- `extract_row_data`: walk the header map in column order, skipping
columns beyond the row's length, stripping string cells. -/
def extract_row_data (hm : List (Nat × String)) (row : List Cell) : List (String × Cell) :=
  hm.foldl (fun d p =>
    match row.get? p.1 with
    | Option.none => d
    | some v => dictSet d p.2 (stripCell v)) []

/-- `row_data.get(k)`: look a field up in the extracted dictionary. -/
def rowGet (d : List (String × Cell)) (k : String) : Option Cell :=
  (d.find? (fun p => p.1 == k)).map (fun p => p.2)

/-- A concrete `float`-parser collaborator used to evaluate the model on
closed inputs: parses unsigned decimal numerals only. -/
def pfNat (s : String) : Option Rat :=
  if s.data ≠ [] ∧ s.data.all Char.isDigit then
    some ((s.data.foldl (fun a c => a * 10 + (c.toNat - 48)) 0 : Nat) : Rat)
  else Option.none

/-- External collaborators and request inputs of one import run. -/
structure Env where
  pf : String → Option Rat
  numRepr : Rat → String
  plm_file : Bool
  extension : String
  rows : List (List Cell)
  defaultUom : String → String
  bcNames : List String
  company : Option String
  currency : Option String
  appendOk : Nat → Bool
  groupCreateOk : String → Bool
  insertOk : String → Bool

/-- Persisted catalog state read and written by the importers: the item
codes and item-group names present in the store. -/
structure Db where
  items : List String
  groups : List String
  deriving DecidableEq, Repr

/-- A parsed data row of the BOM import (lines 145-155 of the source). -/
structure Node where
  row_idx : Nat
  level : Int
  item_code : String
  item_name : String
  item_group : String
  qty : Rat
  uom : String
  deriving DecidableEq, Repr

/-- Python `value in (None, "")` for a looked-up structure-level cell. -/
def slEmpty : Option Cell → Bool
  | Option.none => true
  | some Cell.none => true
  | some (Cell.str s) => s == ""
  | some (Cell.num _) => false

/-- One iteration of the node-collection loop of `import_bom_creator`
(lines 126-155): the parsed node, or `none` when the row is silently
excluded (blank row, missing/empty structure level, empty item code). -/
def parseRow (env : Env) (hm : List (Nat × String)) (row_idx : Nat) (row : List Cell) :
    Option Node :=
  if ¬ row.any cellTruthy then Option.none
  else
    let row_data := extract_row_data hm row
    let item_code := pyStrip (cstr env.numRepr (rowGet row_data "item_code"))
    let structure_level := rowGet row_data "structure_level"
    if slEmpty structure_level then Option.none
    else if item_code = "" then Option.none
    else
      let pq := parse_qty_and_uom env.pf (rowGet row_data "qty")
      let uom0 := pyStrip (cstr env.numRepr (rowGet row_data "stock_uom"))
      some {
        row_idx := row_idx
        level := cintCell env.pf structure_level
        item_code := item_code
        item_name := pyStrip (cstr env.numRepr (rowGet row_data "item_name"))
        item_group := pyStrip (cstr env.numRepr (rowGet row_data "item_group"))
        qty := pq.1
        uom := if uom0 = "" ∧ pq.2 ≠ "" then map_qty_uom pq.2 else uom0 }

/-- The node-collection loop over `rows[1:]`, with `row_idx` counting
from 2 as `enumerate(rows[1:], start=2)` does. -/
def parseNodes (env : Env) (hm : List (Nat × String)) : List Node :=
  (List.enumFrom 2 (env.rows.drop 1)).filterMap (fun p => parseRow env hm p.1 p.2)

/-- `min(node["level"] for node in nodes)` (only used on nonempty lists). -/
def minLevel (nodes : List Node) : Int :=
  ((nodes.map Node.level).min?).getD 0

/-- Root selection of `import_bom_creator` (lines 160-163): the first
minimum-level node, and the node list from its first structurally-equal
occurrence onward (Python `list.index` compares dicts by value). -/
def chooseRoot (nodes : List Node) : Option (Node × List Node) :=
  match nodes.find? (fun n => n.level == minLevel nodes) with
  | some root => some (root, nodes.drop (nodes.findIdx (fun n => n == root)))
  | Option.none => Option.none

/-- A transient stack frame of the tree builder; `item_row_no` is `none`
exactly for the root frame (Python uses `None`, and row numbers start at
1, so Python truthiness of the field coincides with `Option.isSome`). -/
structure Frame where
  level : Int
  item_code : String
  item_row_no : Option Nat
  deriving DecidableEq, Repr

/-- One appended BOM Creator child row.  `level` and `parent_level`
additionally record the structure levels of the node and of the parent
frame it was emitted under; the remaining fields are exactly those the
source passes to `bom_creator.append`. -/
structure BomItemRow where
  item_code : String
  item_name : Option String
  item_group : Option String
  fg_item : String
  qty : Rat
  uom : String
  stock_uom : String
  stock_qty : Rat
  parent_row_no : Option Nat
  idx : Nat
  level : Int
  parent_level : Int
  deriving DecidableEq, Repr

/-- Per-node outcome of the tree-builder loop. -/
inductive BuildOutcome where
  | appended
  | noParent
  | itemMissing
  | appendFailed
  deriving DecidableEq, Repr

/-- State of the tree-builder loop; the stack top is the list head. -/
structure BuildState where
  stack : List Frame
  items : List BomItemRow
  created : Nat
  skipped : Nat
  errors : Nat
  logs : List String
  outcomes : List BuildOutcome
  deriving DecidableEq, Repr

/-- One iteration of the tree-builder loop of `import_bom_creator`
(lines 206-252): pop to the nearest strictly-shallower frame, skip when no
parent remains or the item is missing, otherwise append a child row and
push a frame carrying the appended row's number (`row.idx`, which frappe
assigns sequentially from 1). -/
def buildStep (env : Env) (db : Db) (s : BuildState) (node : Node) : BuildState :=
  let stack := s.stack.dropWhile (fun f => node.level ≤ f.level)
  match stack with
  | [] =>
    { s with stack := [],
             skipped := s.skipped + 1,
             logs := s.logs ++
               ["Row " ++ Nat.repr node.row_idx ++ ": skipped " ++ node.item_code ++
                 " (no parent found)."],
             outcomes := s.outcomes ++ [BuildOutcome.noParent] }
  | parent :: rest =>
    if ¬ node.item_code ∈ db.items then
      { s with stack := parent :: rest,
               skipped := s.skipped + 1,
               logs := s.logs ++
                 ["Row " ++ Nat.repr node.row_idx ++ ": skipped " ++ node.item_code ++
                   " (item not found)."],
               outcomes := s.outcomes ++ [BuildOutcome.itemMissing] }
    else
      let item_uom := if node.uom ≠ "" then node.uom else env.defaultUom node.item_code
      let item_qty := normalize_qty env.pf (some (Cell.num node.qty))
      if env.appendOk node.row_idx then
        let idx := s.items.length + 1
        let row : BomItemRow := {
          item_code := node.item_code
          item_name := if node.item_name = "" then Option.none else some node.item_name
          item_group := if node.item_group = "" then Option.none else some node.item_group
          fg_item := parent.item_code
          qty := item_qty
          uom := item_uom
          stock_uom := item_uom
          stock_qty := item_qty
          parent_row_no := parent.item_row_no
          idx := idx
          level := node.level
          parent_level := parent.level }
        { s with stack := ⟨node.level, node.item_code, some idx⟩ :: parent :: rest,
                 items := s.items ++ [row],
                 created := s.created + 1,
                 outcomes := s.outcomes ++ [BuildOutcome.appended] }
      else
        { s with stack := parent :: rest,
                 errors := s.errors + 1,
                 logs := s.logs ++
                   ["Row " ++ Nat.repr node.row_idx ++ ": failed " ++ node.item_code ++
                     " (see error log)."],
                 outcomes := s.outcomes ++ [BuildOutcome.appendFailed] }

/-- The initial builder state: a stack holding only the root frame. -/
def buildInit (root : Node) : BuildState :=
  { stack := [⟨root.level, root.item_code, Option.none⟩],
    items := [], created := 0, skipped := 0, errors := 0, logs := [], outcomes := [] }

/-- The tree-builder loop over the non-root nodes. -/
def runBuild (env : Env) (db : Db) (root : Node) (nodes : List Node) : BuildState :=
  nodes.foldl (buildStep env db) (buildInit root)

/-- The candidate-probing loop of `get_unique_bom_creator_name`, with
explicit fuel (the source loop is unbounded; `existing.length` iterations
are proved sufficient below). -/
def findRev (existing : List String) (base : String) : Nat → Nat → Option String
  | 0, _ => Option.none
  | fuel + 1, i =>
    if (base ++ "-REV" ++ Nat.repr i) ∈ existing then findRev existing base fuel (i + 1)
    else some (base ++ "-REV" ++ Nat.repr i)

/-- `get_unique_bom_creator_name` (lines 282-292): the trimmed base name
if free, else the first free `-REVn` candidate (the `getD` default is
never reached; see the fuel-sufficiency theorem below). -/
def get_unique_bom_creator_name (existing : List String) (base_name : String) : String :=
  let base := pyStrip base_name
  if base ∈ existing then (findRev existing base existing.length 1).getD base
  else base

/-- The persisted BOM Creator document (fields set in lines 176-192 of
the source, plus the child rows appended by the builder loop). -/
structure BomCreator where
  name : String
  company : String
  currency : String
  rm_cost_as_per : String
  item_code : String
  qty : Rat
  item_name : Option String
  item_group : Option String
  uom : String
  items : List BomItemRow
  deriving DecidableEq, Repr

/-- The result of a successful `import_bom_creator` run: the persisted
BOM Creator plus the returned summary/log and the counters. -/
structure BomResult where
  bom_creator : BomCreator
  summary : String
  log : String
  created : Nat
  skipped : Nat
  errors : Nat
  logs : List String
  outcomes : List BuildOutcome
  deriving DecidableEq, Repr

/-- The header map of the attached file (`build_header_map(rows[0])`). -/
def hmOf (env : Env) : List (Nat × String) :=
  build_header_map env.numRepr (env.rows.headD [])

/-- The parsed node list of the attached file. -/
def nodesOf (env : Env) : List Node :=
  parseNodes env (hmOf env)

/-- The allowed attachment extensions checked by `get_file`. -/
def extOk (env : Env) : Prop :=
  env.extension = "csv" ∨ env.extension = "xlsx" ∨ env.extension = "xls"

instance (env : Env) : Decidable (extOk env) := by
  unfold extOk
  infer_instance

/-- The success path of `import_bom_creator` once every abort check has
passed: build the tree, resolve the name, assemble document, summary and
log (lines 176-265). -/
def bomSuccess (env : Env) (db : Db) (root : Node) (kept : List Node)
    (company currency : String) : BomResult :=
  let final := runBuild env db root (kept.drop 1)
  let name := get_unique_bom_creator_name env.bcNames root.item_code
  let bc : BomCreator := {
    name := name
    company := company
    currency := currency
    rm_cost_as_per := "Valuation Rate"
    item_code := root.item_code
    qty := normalize_qty env.pf (some (Cell.num root.qty))
    item_name := if root.item_name = "" then Option.none else some root.item_name
    item_group := if root.item_group = "" then Option.none else some root.item_group
    uom := if root.uom ≠ "" then root.uom else env.defaultUom root.item_code
    items := final.items }
  let summary := "Created BOM Creator " ++ name ++ ". Items: " ++
    Nat.repr final.created ++ ", Skipped: " ++ Nat.repr final.skipped ++
    ", Errors: " ++ Nat.repr final.errors ++ "."
  { bom_creator := bc
    summary := summary
    log := String.intercalate "\n" (summary :: final.logs)
    created := final.created
    skipped := final.skipped
    errors := final.errors
    logs := final.logs
    outcomes := final.outcomes }

/-- `import_bom_creator` (lines 108-265): the whole request handler.
`frappe.throw` is modelled by `Except.error`; every persisted artifact
lives in the `Except.ok` payload, so an aborted run changes nothing. -/
def import_bom_creator (env : Env) (db : Db) : Except String BomResult :=
  if env.plm_file = false then
    Except.error "Please attach a PLM file before creating BOM Creator."
  else if ¬ extOk env then
    Except.error "Only CSV and Excel files are supported."
  else if env.rows.length < 2 then
    Except.error "No data found in the attached file."
  else if ¬ (hmOf env).any (fun p => p.2 == "structure_level") then
    Except.error "Missing required column: Structure Level."
  else if ¬ (hmOf env).any (fun p => p.2 == "item_code") then
    Except.error "Missing required column: Number / Item Code."
  else if nodesOf env = [] then
    Except.error "No valid rows found in the attached file."
  else
    match chooseRoot (nodesOf env) with
    | Option.none => Except.error "No valid rows found in the attached file."
    | some (root, kept) =>
      if ¬ root.item_code ∈ db.items then
        Except.error ("Root item " ++ root.item_code ++
          " not found. Please create the item first.")
      else
        match env.company with
        | Option.none => Except.error "Default company is not set."
        | some company =>
          match env.currency with
          | Option.none =>
            Except.error ("Default currency is not set for company " ++ company ++ ".")
          | some currency =>
            Except.ok (bomSuccess env db root kept company currency)

/-- `frappe.utils.flt` of a raw (possibly missing) cell value. -/
def fltCell (pf : String → Option Rat) : Option Cell → Rat
  | some (Cell.str s) => fltStr pf s
  | some (Cell.num q) => q
  | _ => 0

/-- Python truthiness of a looked-up cell (missing values are falsy). -/
def cellTruthyOpt : Option Cell → Bool
  | some c => cellTruthy c
  | Option.none => false

/-- The Item document inserted by `import_items` (lines 69-90). -/
structure ItemDoc where
  item_code : String
  item_name : String
  item_group : String
  stock_uom : String
  description : Option Cell
  gst_hsn_code : Option String
  custom_material : Option Cell
  custom_length : Rat
  custom_width : Rat
  custom_height : Rat
  custom_diameter : Rat
  custom_thickness : Rat
  custom_weight : Rat
  deriving DecidableEq, Repr

/-- Per-row outcome of the `import_items` loop. -/
inductive RowOutcome where
  | blank
  | createdRow
  | duplicateRow
  | noCode
  | noGroup
  | groupFailed
  | insertFailed
  deriving DecidableEq, Repr

/-- `ensure_item_group` (lines 396-405): return the group name (and the
store, grown when the group had to be created), or `none` when the
creation attempt fails. -/
def ensure_item_group (env : Env) (db : Db) (item_group : String) :
    Option (String × Db) :=
  if item_group ∈ db.groups then some (item_group, db)
  else if env.groupCreateOk item_group then
    some (item_group, { db with groups := db.groups ++ [item_group] })
  else Option.none

/-- The trimmed item code of a row (`cstr(row_data.get("item_code")).strip()`). -/
def itemCodeOf (env : Env) (hm : List (Nat × String)) (row : List Cell) : String :=
  pyStrip (cstr env.numRepr (rowGet (extract_row_data hm row) "item_code"))

/-- The trimmed item group of a row (`cstr(row_data.get("item_group")).strip()`). -/
def itemGroupOf (env : Env) (hm : List (Nat × String)) (row : List Cell) : String :=
  pyStrip (cstr env.numRepr (rowGet (extract_row_data hm row) "item_group"))

/-- The Item document built by `import_items` for one row (lines 69-89). -/
def mkItemDoc (env : Env) (hm : List (Nat × String)) (row : List Cell)
    (item_group : String) : ItemDoc :=
  { item_code := itemCodeOf env hm row
    item_name :=
      let n := pyStrip (cstr env.numRepr (rowGet (extract_row_data hm row) "item_name"))
      if n = "" then itemCodeOf env hm row else n
    item_group := item_group
    stock_uom :=
      let u := pyStrip (cstr env.numRepr (rowGet (extract_row_data hm row) "stock_uom"))
      if u = "" then "Nos" else u
    description :=
      if cellTruthyOpt (rowGet (extract_row_data hm row) "description") then
        rowGet (extract_row_data hm row) "description"
      else Option.none
    gst_hsn_code :=
      if cellTruthyOpt (rowGet (extract_row_data hm row) "gst_hsn_code") then
        some (pyStrip (cstr env.numRepr (rowGet (extract_row_data hm row) "gst_hsn_code")))
      else Option.none
    custom_material := rowGet (extract_row_data hm row) "custom_material"
    custom_length :=
      if cellTruthyOpt (rowGet (extract_row_data hm row) "custom_length") then
        fltCell env.pf (rowGet (extract_row_data hm row) "custom_length")
      else 0
    custom_width :=
      if cellTruthyOpt (rowGet (extract_row_data hm row) "custom_width") then
        fltCell env.pf (rowGet (extract_row_data hm row) "custom_width")
      else 0
    custom_height :=
      if cellTruthyOpt (rowGet (extract_row_data hm row) "custom_height") then
        fltCell env.pf (rowGet (extract_row_data hm row) "custom_height")
      else 0
    custom_diameter :=
      if cellTruthyOpt (rowGet (extract_row_data hm row) "custom_diameter") then
        fltCell env.pf (rowGet (extract_row_data hm row) "custom_diameter")
      else 0
    custom_thickness :=
      if cellTruthyOpt (rowGet (extract_row_data hm row) "custom_thickness") then
        fltCell env.pf (rowGet (extract_row_data hm row) "custom_thickness")
      else 0
    custom_weight :=
      if cellTruthyOpt (rowGet (extract_row_data hm row) "custom_weight") then
        fltCell env.pf (rowGet (extract_row_data hm row) "custom_weight")
      else 0 }

/-- One iteration of the `import_items` row loop (lines 39-95): the
outcome, the updated store, the log lines produced, and the inserted Item
document when one is created. -/
def rowAction (env : Env) (hm : List (Nat × String)) (db : Db)
    (row_idx : Nat) (row : List Cell) :
    RowOutcome × Db × List String × Option ItemDoc :=
  if ¬ row.any cellTruthy then (RowOutcome.blank, db, [], Option.none)
  else if itemCodeOf env hm row = "" then
    (RowOutcome.noCode, db,
      ["Row " ++ Nat.repr row_idx ++ ": skipped (missing item code)."], Option.none)
  else if itemGroupOf env hm row = "" then
    (RowOutcome.noGroup, db,
      ["Row " ++ Nat.repr row_idx ++ ": skipped " ++ itemCodeOf env hm row ++
        " (missing part type / item group)."], Option.none)
  else
    match ensure_item_group env db (itemGroupOf env hm row) with
    | Option.none =>
      (RowOutcome.groupFailed, db,
        ["Row " ++ Nat.repr row_idx ++ ": failed " ++ itemCodeOf env hm row ++
          " (could not create item group)."], Option.none)
    | some (item_group, db1) =>
      if itemCodeOf env hm row ∈ db1.items then
        (RowOutcome.duplicateRow, db1,
          ["Row " ++ Nat.repr row_idx ++ ": duplicate " ++ itemCodeOf env hm row ++
            " (already exists)."], Option.none)
      else if env.insertOk (itemCodeOf env hm row) then
        (RowOutcome.createdRow,
          { db1 with items := db1.items ++ [itemCodeOf env hm row] },
          ["Row " ++ Nat.repr row_idx ++ ": created " ++ itemCodeOf env hm row ++ "."],
          some (mkItemDoc env hm row item_group))
      else
        (RowOutcome.insertFailed, db1,
          ["Row " ++ Nat.repr row_idx ++ ": failed " ++ itemCodeOf env hm row ++
            " (see error log)."], Option.none)

/-- State of the `import_items` loop. -/
structure ItemsState where
  db : Db
  created : Nat
  duplicates : Nat
  skipped : Nat
  errors : Nat
  logs : List String
  outcomes : List RowOutcome
  docs : List ItemDoc
  deriving DecidableEq, Repr

/-- Counter and log bookkeeping of one `import_items` iteration: each
outcome updates exactly the counter its source branch increments. -/
def itemsStep (env : Env) (hm : List (Nat × String)) (s : ItemsState)
    (p : Nat × List Cell) : ItemsState :=
  match rowAction env hm s.db p.1 p.2 with
  | (o, db1, ls, doc) =>
    { db := db1,
      created := s.created + (if o = RowOutcome.createdRow then 1 else 0),
      duplicates := s.duplicates + (if o = RowOutcome.duplicateRow then 1 else 0),
      skipped := s.skipped +
        (if o = RowOutcome.noCode ∨ o = RowOutcome.noGroup then 1 else 0),
      errors := s.errors +
        (if o = RowOutcome.groupFailed ∨ o = RowOutcome.insertFailed then 1 else 0),
      logs := s.logs ++ ls,
      outcomes := s.outcomes ++ [o],
      docs := s.docs ++ doc.toList }

/-- The `import_items` row loop over `enumerate(rows[1:], start=2)`. -/
def runItems (env : Env) (hm : List (Nat × String)) (s : ItemsState)
    (rows : List (Nat × List Cell)) : ItemsState :=
  rows.foldl (itemsStep env hm) s

/-- The zero-counter loop state over a given store. -/
def itemsInit (db : Db) : ItemsState :=
  { db := db, created := 0, duplicates := 0, skipped := 0, errors := 0,
    logs := [], outcomes := [], docs := [] }

/-- The result of a successful `import_items` run. -/
structure ItemsResult where
  summary : String
  log : String
  created : Nat
  duplicates : Nat
  skipped : Nat
  errors : Nat
  logs : List String
  outcomes : List RowOutcome
  docs : List ItemDoc
  deriving DecidableEq, Repr

/-- `import_items` (lines 18-104): aborts before touching the store when
the attachment, the extension, the file content or the item-code column
is missing; otherwise processes every data row and returns the summary
and log together with the updated store. -/
def import_items (env : Env) (db : Db) : Except String ItemsResult × Db :=
  if env.plm_file = false then
    (Except.error "Please attach a PLM file before creating items.", db)
  else if ¬ extOk env then
    (Except.error "Only CSV and Excel files are supported.", db)
  else if env.rows.length < 2 then
    (Except.error "No data found in the attached file.", db)
  else if ¬ (hmOf env).any (fun p => p.2 == "item_code") then
    (Except.error "Missing required column: Number / Item Code.", db)
  else
      let final := runItems env (hmOf env) (itemsInit db) (List.enumFrom 2 (env.rows.drop 1))
      let summary := "Created: " ++ Nat.repr final.created ++ ", Duplicates: " ++
        Nat.repr final.duplicates ++ ", Skipped: " ++ Nat.repr final.skipped ++
        ", Errors: " ++ Nat.repr final.errors ++ "."
      (Except.ok {
        summary := summary
        log := String.intercalate "\n" (summary :: final.logs)
        created := final.created
        duplicates := final.duplicates
        skipped := final.skipped
        errors := final.errors
        logs := final.logs
        outcomes := final.outcomes
        docs := final.docs }, final.db)

/-- A concrete collaborator environment whose attached file is the 5-row
example of the specification: a header row, a level-0 root `R`, two
level-1 children `A`, `B`, and one level-2 grandchild `C` under `B`. -/
def envW : Env :=
  { pf := pfNat, numRepr := fun _ => "", plm_file := true, extension := "csv",
    rows := [[Cell.str "Number", Cell.str "Level"],
             [Cell.str "R", Cell.str "0"],
             [Cell.str "A", Cell.str "1"],
             [Cell.str "B", Cell.str "1"],
             [Cell.str "C", Cell.str "2"]],
    defaultUom := fun _ => "Nos", bcNames := [], company := some "TestCo",
    currency := some "INR", appendOk := fun _ => true,
    groupCreateOk := fun _ => true, insertOk := fun _ => true }

/-- A store that already holds the four items of `envW`'s file. -/
def dbW : Db := { items := ["R", "A", "B", "C"], groups := ["All Item Groups"] }

/-! ## C4 — quantity normalization (`parse_qty_and_uom`) -/

/-- C4 counterexample: on the input `"0 kg"` the numeric part is
non-positive, so by the claim the function should return quantity 1 and
unit `""`; the code indeed returns quantity 1 but keeps the unit hint
`"kg"`, so the "unit is empty" part of the claim is false. -/
theorem parse_qty_unit_cex :
    parse_qty_and_uom pfNat (some (Cell.str "0 kg")) = (1, "kg") ∧ ("kg" : String) ≠ "" := by
  exact ⟨by decide, by decide⟩

/-- C4 (amended): the quantity returned by `parse_qty_and_uom` is always
positive, and it is exactly 1 whenever the numeric value computed before
the clamp (`rawQty`: 0 on a parse failure, 0 on empty input, else the
parsed number) is non-positive; the returned unit is the second
whitespace token of a string input when present and `""` otherwise,
independent of whether the quantity parsed. -/
theorem parse_qty_positive_and_default (pf : String → Option Rat) (v : Option Cell) :
    0 < (parse_qty_and_uom pf v).1 ∧
      (rawQty pf v ≤ 0 → (parse_qty_and_uom pf v).1 = 1) ∧
      (parse_qty_and_uom pf v).2 = qtyUom v := by
  refine ⟨?_, ?_, rfl⟩
  · by_cases h : rawQty pf v > 0
    · simp [parse_qty_and_uom, h]
    · simp [parse_qty_and_uom, h]
  · intro h
    have h' : ¬ rawQty pf v > 0 := not_lt.mpr h
    simp [parse_qty_and_uom, h']

/-- C4 witness: the amended theorem instantiated at the unparseable
input `"abc"`. -/
theorem parse_qty_positive_and_default_witness :
    0 < (parse_qty_and_uom pfNat (some (Cell.str "abc"))).1 ∧
      (parse_qty_and_uom pfNat (some (Cell.str "abc"))).1 = 1 := by
  obtain ⟨h1, h2, _⟩ := parse_qty_positive_and_default pfNat (some (Cell.str "abc"))
  exact ⟨h1, h2 (by decide)⟩

/-! ## C1 — emitted rows always attach strictly below their parent -/

lemma dropWhile_eq_cons_head_false {α : Type} (p : α → Bool) (l : List α) (a : α) (t : List α)
    (h : l.dropWhile p = a :: t) : p a = false := by
  induction l with
  | nil => simp at h
  | cons x xs ih =>
    by_cases hx : p x
    · rw [List.dropWhile_cons_of_pos hx] at h
      exact ih h
    · rw [List.dropWhile_cons_of_neg hx] at h
      cases h
      simpa using hx

lemma buildStep_items_parent_lt (env : Env) (db : Db) (s : BuildState) (n : Node) :
    ∀ r ∈ (buildStep env db s n).items, r ∈ s.items ∨ r.parent_level < r.level := by
  intro r hr
  unfold buildStep at hr
  rcases hstack : s.stack.dropWhile (fun f => decide (n.level ≤ f.level)) with _ | ⟨parent, rest⟩
  · rw [hstack] at hr
    exact Or.inl hr
  · rw [hstack] at hr
    simp only at hr
    by_cases hmem : n.item_code ∈ db.items
    · rw [if_neg (not_not_intro hmem)] at hr
      by_cases hap : env.appendOk n.row_idx
      · rw [if_pos hap] at hr
        rcases List.mem_append.mp hr with h1 | h2
        · exact Or.inl h1
        · right
          have hne := dropWhile_eq_cons_head_false _ _ _ _ hstack
          have hlt : ¬ (n.level ≤ parent.level) := of_decide_eq_false hne
          have heq := List.mem_singleton.mp h2
          subst heq
          simpa using lt_of_not_le hlt
      · rw [if_neg hap] at hr
        exact Or.inl hr
    · rw [if_pos hmem] at hr
      exact Or.inl hr

lemma runBuild_parent_lt_aux (env : Env) (db : Db) (nodes : List Node) (s : BuildState)
    (h : ∀ r ∈ s.items, r.parent_level < r.level) :
    ∀ r ∈ (nodes.foldl (buildStep env db) s).items, r.parent_level < r.level := by
  induction nodes generalizing s with
  | nil => exact h
  | cons n ns ih =>
    rw [List.foldl_cons]
    apply ih
    intro r hr
    rcases buildStep_items_parent_lt env db s n r hr with h1 | h2
    · exact h r h1
    · exact h2

/-- C1: every row the tree builder emits is emitted under a parent frame
whose structure level is strictly smaller than the row's own level: no
node is ever attached to a parent with level greater than or equal to its
own. -/
theorem build_parent_level_lt (env : Env) (db : Db) (root : Node) (nodes : List Node) :
    ∀ r ∈ (runBuild env db root nodes).items, r.parent_level < r.level := by
  apply runBuild_parent_lt_aux
  intro r hr
  simp [buildInit] at hr

/-- The root and single child used to witness the builder invariants. -/
def rootW : Node :=
  { row_idx := 2, level := 0, item_code := "R", item_name := "", item_group := "",
    qty := 1, uom := "" }

/-- A level-1 child node under `rootW`. -/
def nodeW : Node :=
  { row_idx := 3, level := 1, item_code := "A", item_name := "", item_group := "",
    qty := 1, uom := "" }

/-- The row the builder emits for `nodeW`. -/
def rowW : BomItemRow :=
  { item_code := "A", item_name := Option.none, item_group := Option.none, fg_item := "R",
    qty := 1, uom := "Nos", stock_uom := "Nos", stock_qty := 1,
    parent_row_no := Option.none, idx := 1, level := 1, parent_level := 0 }

/-- C1 witness: the theorem applied to a concrete one-child run. -/
theorem build_parent_level_lt_witness :
    rowW ∈ (runBuild envW dbW rootW [nodeW]).items ∧ rowW.parent_level < rowW.level := by
  have hmem : rowW ∈ (runBuild envW dbW rootW [nodeW]).items := by decide
  exact ⟨hmem, build_parent_level_lt envW dbW rootW [nodeW] rowW hmem⟩

/-! ## C3 — skipped nodes never become parents -/

/-- A stack frame refers either to the root (no row number) or to a row
that was actually appended to the document. -/
def frameProv (rootCode : String) (items : List BomItemRow) (f : Frame) : Prop :=
  (f.item_row_no = Option.none ∧ f.item_code = rootCode) ∨
    ∃ r ∈ items, f.item_row_no = some r.idx ∧ f.item_code = r.item_code

/-- An emitted row's parent reference points at the root or at a row that
was actually appended: never at a skipped node, which pushes no frame. -/
def rowProv (rootCode : String) (items : List BomItemRow) (r : BomItemRow) : Prop :=
  (r.parent_row_no = Option.none ∧ r.fg_item = rootCode) ∨
    ∃ p ∈ items, r.parent_row_no = some p.idx ∧ r.fg_item = p.item_code

lemma frameProv_mono (rootCode : String) {items items' : List BomItemRow} (f : Frame)
    (hsub : ∀ r ∈ items, r ∈ items') (h : frameProv rootCode items f) :
    frameProv rootCode items' f := by
  rcases h with h | ⟨r, hr, h1, h2⟩
  · exact Or.inl h
  · exact Or.inr ⟨r, hsub r hr, h1, h2⟩

lemma rowProv_mono (rootCode : String) {items items' : List BomItemRow} (r : BomItemRow)
    (hsub : ∀ x ∈ items, x ∈ items') (h : rowProv rootCode items r) :
    rowProv rootCode items' r := by
  rcases h with h | ⟨p, hp, h1, h2⟩
  · exact Or.inl h
  · exact Or.inr ⟨p, hsub p hp, h1, h2⟩

lemma buildStep_prov (env : Env) (db : Db) (rootCode : String) (s : BuildState) (n : Node)
    (hstack : ∀ f ∈ s.stack, frameProv rootCode s.items f)
    (hitems : ∀ r ∈ s.items, rowProv rootCode s.items r) :
    (∀ f ∈ (buildStep env db s n).stack, frameProv rootCode (buildStep env db s n).items f) ∧
    (∀ r ∈ (buildStep env db s n).items, rowProv rootCode (buildStep env db s n).items r) := by
  have hdrop : ∀ f ∈ s.stack.dropWhile (fun f => decide (n.level ≤ f.level)), f ∈ s.stack :=
    fun f hf => (List.dropWhile_sublist _).subset hf
  unfold buildStep
  rcases hdw : s.stack.dropWhile (fun f => decide (n.level ≤ f.level)) with _ | ⟨parent, rest⟩
  · rw [hdw]
    simp only
    constructor
    · intro f hf
      exact absurd hf (List.not_mem_nil f)
    · exact hitems
  · rw [hdw]
    simp only
    by_cases hmem : n.item_code ∈ db.items
    · rw [if_neg (not_not_intro hmem)]
      by_cases hap : env.appendOk n.row_idx
      · rw [if_pos hap]
        simp only
        have hsub : ∀ x ∈ s.items, x ∈ s.items ++
            [{ item_code := n.item_code,
               item_name := if n.item_name = "" then Option.none else some n.item_name,
               item_group := if n.item_group = "" then Option.none else some n.item_group,
               fg_item := parent.item_code,
               qty := normalize_qty env.pf (some (Cell.num n.qty)),
               uom := if n.uom ≠ "" then n.uom else env.defaultUom n.item_code,
               stock_uom := if n.uom ≠ "" then n.uom else env.defaultUom n.item_code,
               stock_qty := normalize_qty env.pf (some (Cell.num n.qty)),
               parent_row_no := parent.item_row_no,
               idx := s.items.length + 1, level := n.level,
               parent_level := parent.level }] :=
          fun x hx => List.mem_append_left _ hx
        constructor
        · intro f hf
          rcases List.mem_cons.mp hf with hf1 | hf2
          · subst hf1
            refine Or.inr ⟨_, List.mem_append_right _ (List.mem_singleton.mpr rfl), rfl, rfl⟩
          · have hfs : f ∈ s.stack := hdrop f (hdw ▸ hf2)
            exact frameProv_mono rootCode f hsub (hstack f hfs)
        · intro r hr
          rcases List.mem_append.mp hr with hr1 | hr2
          · exact rowProv_mono rootCode r hsub (hitems r hr1)
          · have heq := List.mem_singleton.mp hr2
            subst heq
            have hparent : parent ∈ s.stack := hdrop parent (hdw ▸ List.mem_cons_self parent rest)
            rcases hstack parent hparent with ⟨h1, h2⟩ | ⟨p, hp, h1, h2⟩
            · exact Or.inl ⟨h1, h2⟩
            · exact Or.inr ⟨p, hsub p hp, h1, h2⟩
      · rw [if_neg hap]
        simp only
        constructor
        · intro f hf
          have hfs : f ∈ s.stack := hdrop f (hdw ▸ hf)
          exact hstack f hfs
        · exact hitems
    · rw [if_pos hmem]
      simp only
      constructor
      · intro f hf
        have hfs : f ∈ s.stack := hdrop f (hdw ▸ hf)
        exact hstack f hfs
      · exact hitems

lemma runBuild_prov_aux (env : Env) (db : Db) (rootCode : String) (nodes : List Node)
    (s : BuildState)
    (h1 : ∀ f ∈ s.stack, frameProv rootCode s.items f)
    (h2 : ∀ r ∈ s.items, rowProv rootCode s.items r) :
    (∀ f ∈ (nodes.foldl (buildStep env db) s).stack,
        frameProv rootCode (nodes.foldl (buildStep env db) s).items f) ∧
    (∀ r ∈ (nodes.foldl (buildStep env db) s).items,
        rowProv rootCode (nodes.foldl (buildStep env db) s).items r) := by
  induction nodes generalizing s with
  | nil => exact ⟨h1, h2⟩
  | cons n ns ih =>
    rw [List.foldl_cons]
    have hstep := buildStep_prov env db rootCode s n h1 h2
    exact ih (buildStep env db s n) hstep.1 hstep.2

/-- C3: every emitted row's parent reference is either the root frame
(no row number) or an actually-appended row with the referenced row
number and item code — a skipped node pushes no frame, so no later node
is ever emitted with a skipped node as its parent; the same holds of
every frame remaining on the stack. -/
theorem build_skipped_never_parent (env : Env) (db : Db) (root : Node) (nodes : List Node) :
    (∀ r ∈ (runBuild env db root nodes).items,
        rowProv root.item_code (runBuild env db root nodes).items r) ∧
    (∀ f ∈ (runBuild env db root nodes).stack,
        frameProv root.item_code (runBuild env db root nodes).items f) := by
  have h := runBuild_prov_aux env db root.item_code nodes (buildInit root) ?_ ?_
  · exact ⟨h.2, h.1⟩
  · intro f hf
    have : f = ⟨root.level, root.item_code, Option.none⟩ := by
      simpa [buildInit] using hf
    subst this
    exact Or.inl ⟨rfl, rfl⟩
  · intro r hr
    simp [buildInit] at hr

/-- C3 witness: the row emitted for `nodeW` in the concrete one-child run
attaches to the root, as the theorem asserts. -/
theorem build_skipped_never_parent_witness :
    rowW ∈ (runBuild envW dbW rootW [nodeW]).items ∧
      rowProv rootW.item_code (runBuild envW dbW rootW [nodeW]).items rowW := by
  have hmem : rowW ∈ (runBuild envW dbW rootW [nodeW]).items := by decide
  exact ⟨hmem, (build_skipped_never_parent envW dbW rootW [nodeW]).1 rowW hmem⟩

/-! ## C2 — root selection -/

lemma findIdx_beq_of_find? {α : Type} [DecidableEq α] (p : α → Bool) (l : List α) (r : α)
    (h : l.find? p = some r) : l.findIdx (fun a => a == r) = l.findIdx p := by
  induction l with
  | nil => simp at h
  | cons x xs ih =>
    by_cases hx : p x
    · rw [List.find?_cons_of_pos _ hx] at h
      have hxr : x = r := by simpa using h
      subst hxr
      rw [List.findIdx_cons, List.findIdx_cons]
      simp [hx]
    · rw [List.find?_cons_of_neg _ hx] at h
      have hpr : p r = true := List.find?_some h
      have hne : x ≠ r := fun heq => by
        rw [heq] at hx
        exact hx hpr
      rw [List.findIdx_cons, List.findIdx_cons]
      have hbeq : (x == r) = false := beq_false_of_ne hne
      simp [hx, hbeq, ih h]

lemma find?_minLevel_some (nodes : List Node) (h : nodes ≠ []) :
    ∃ root, nodes.find? (fun n => n.level == minLevel nodes) = some root := by
  rcases hmin : (nodes.map Node.level).min? with _ | m
  · rw [List.min?_eq_none_iff] at hmin
    exact absurd (List.map_eq_nil_iff.mp hmin) h
  · have hm : m ∈ nodes.map Node.level := List.min?_mem (fun a b => min_choice a b) hmin
    rcases List.mem_map.mp hm with ⟨n, hn, hnl⟩
    have : ∃ x ∈ nodes, (x.level == minLevel nodes) = true := by
      refine ⟨n, hn, ?_⟩
      simp [minLevel, hmin, hnl]
    rcases List.find?_isSome.mpr this |> Option.isSome_iff_exists.mp with ⟨root, hroot⟩
    exact ⟨root, hroot⟩

/-- C2: for a nonempty parsed node list, the chosen root is the first node
in file order whose level equals the minimum level over all nodes, and
tree construction keeps exactly the nodes from that root onward — every
node preceding it is discarded (`nodes.index(root)` lands on the root
itself, because an earlier structurally-equal node would itself be a
first minimum-level node). -/
theorem chooseRoot_first_min (nodes : List Node) (h : nodes ≠ []) :
    ∃ root, nodes.find? (fun n => n.level == minLevel nodes) = some root ∧
      root.level = minLevel nodes ∧
      chooseRoot nodes =
        some (root, nodes.drop (nodes.findIdx (fun n => n.level == minLevel nodes))) := by
  rcases find?_minLevel_some nodes h with ⟨root, hfind⟩
  refine ⟨root, hfind, ?_, ?_⟩
  · have := List.find?_some hfind
    simpa using this
  · unfold chooseRoot
    rw [hfind]
    simp only
    rw [findIdx_beq_of_find? _ nodes root hfind]

/-- Node constructor helper for concrete examples. -/
def mkNode (i : Nat) (l : Int) (c : String) : Node :=
  { row_idx := i, level := l, item_code := c, item_name := "", item_group := "",
    qty := 1, uom := "" }

/-- The level sequence `[3, 3, 1, 2, 1]` from the specification. -/
def nodesW5 : List Node :=
  [mkNode 2 3 "N1", mkNode 3 3 "N2", mkNode 4 1 "N3", mkNode 5 2 "N4", mkNode 6 1 "N5"]

/-- C2 witness: the theorem applied to the level sequence `[3,3,1,2,1]`. -/
theorem chooseRoot_first_min_witness :
    ∃ root, nodesW5.find? (fun n => n.level == minLevel nodesW5) = some root ∧
      root.level = minLevel nodesW5 ∧
      chooseRoot nodesW5 =
        some (root, nodesW5.drop (nodesW5.findIdx (fun n => n.level == minLevel nodesW5))) :=
  chooseRoot_first_min nodesW5 (by decide)

/-! ## C5 — collision-free naming (`get_unique_bom_creator_name`) -/

lemma string_eq_of_data_eq (s t : String) (h : s.data = t.data) : s = t := by
  cases s
  cases t
  exact congrArg String.mk h

/-- Digit value of the characters produced by `Nat.digitChar` for
decimal digits. -/
def digitVal (c : Char) : Nat :=
  if c = '1' then 1 else if c = '2' then 2 else if c = '3' then 3 else if c = '4' then 4
  else if c = '5' then 5 else if c = '6' then 6 else if c = '7' then 7 else if c = '8' then 8
  else if c = '9' then 9 else 0

lemma digitVal_digitChar : ∀ d : Nat, d < 10 → digitVal (Nat.digitChar d) = d := by decide

/-- Decimal reading of a digit string, most significant digit first. -/
def ofDigitChars (l : List Char) : Nat :=
  l.foldl (fun a c => a * 10 + digitVal c) 0

lemma ofDigitChars_append_singleton (l : List Char) (c : Char) :
    ofDigitChars (l ++ [c]) = ofDigitChars l * 10 + digitVal c := by
  simp [ofDigitChars, List.foldl_append]

lemma toDigitsCore_append (b : Nat) : ∀ (f n : Nat) (l : List Char),
    Nat.toDigitsCore b f n l = Nat.toDigitsCore b f n [] ++ l := by
  intro f
  induction f with
  | zero => intro n l; simp [Nat.toDigitsCore]
  | succ f ih =>
    intro n l
    simp only [Nat.toDigitsCore]
    by_cases h : n / b = 0
    · simp [h]
    · rw [if_neg h, if_neg h, ih (n / b) (Nat.digitChar (n % b) :: l),
        ih (n / b) [Nat.digitChar (n % b)], List.append_assoc]
      rfl

lemma ofDigitChars_toDigitsCore : ∀ f n : Nat, n < f →
    ofDigitChars (Nat.toDigitsCore 10 f n []) = n := by
  intro f
  induction f with
  | zero => intro n h; omega
  | succ f ih =>
    intro n h
    simp only [Nat.toDigitsCore]
    by_cases h10 : n / 10 = 0
    · rw [if_pos h10]
      have hn : n < 10 := (Nat.div_eq_zero_iff (by norm_num)).mp h10
      have h1 : ofDigitChars [Nat.digitChar (n % 10)] = digitVal (Nat.digitChar (n % 10)) := by
        simp [ofDigitChars]
      rw [h1, digitVal_digitChar (n % 10) (Nat.mod_lt n (by norm_num)), Nat.mod_eq_of_lt hn]
    · rw [if_neg h10, toDigitsCore_append, ofDigitChars_append_singleton]
      have hlt : n / 10 < f := by
        have h0 : 0 < n := by
          rcases Nat.eq_zero_or_pos n with h' | h'
          · subst h'; simp at h10
          · exact h'
        have := Nat.div_lt_self h0 (show 1 < 10 by norm_num)
        omega
      rw [ih (n / 10) hlt, digitVal_digitChar (n % 10) (Nat.mod_lt n (by norm_num))]
      omega

lemma natRepr_inj (m n : Nat) (h : Nat.repr m = Nat.repr n) : m = n := by
  have hdata : Nat.toDigitsCore 10 (m + 1) m [] = Nat.toDigitsCore 10 (n + 1) n [] := by
    have hd := congrArg String.data h
    simpa [Nat.repr, Nat.toDigits, List.asString] using hd
  have h1 := ofDigitChars_toDigitsCore (m + 1) m (by omega)
  have h2 := ofDigitChars_toDigitsCore (n + 1) n (by omega)
  rw [← h1, hdata, h2]

/-- The candidate name probed at loop index `i`. -/
def revCandidate (base : String) (i : Nat) : String :=
  base ++ "-REV" ++ Nat.repr i

lemma revCandidate_inj (base : String) (i j : Nat)
    (h : revCandidate base i = revCandidate base j) : i = j := by
  unfold revCandidate at h
  have hd := congrArg String.data h
  rw [String.data_append, String.data_append, String.data_append, String.data_append] at hd
  have hrepr : (Nat.repr i).data = (Nat.repr j).data := List.append_cancel_left hd
  exact natRepr_inj i j (string_eq_of_data_eq _ _ hrepr)

lemma base_ne_revCandidate (base : String) (i : Nat) : base ≠ revCandidate base i := by
  intro h
  have hlen := congrArg String.length h
  unfold revCandidate at hlen
  rw [String.length_append, String.length_append] at hlen
  have h4 : ("-REV" : String).length = 4 := rfl
  omega

lemma findRev_none_spec (existing : List String) (base : String) :
    ∀ fuel i, findRev existing base fuel i = Option.none →
      ∀ k, k < fuel → revCandidate base (i + k) ∈ existing := by
  intro fuel
  induction fuel with
  | zero => intro i _ k hk; omega
  | succ f ih =>
    intro i h k hk
    unfold findRev at h
    by_cases hc : (base ++ "-REV" ++ Nat.repr i) ∈ existing
    · rw [if_pos hc] at h
      cases k with
      | zero => simpa [revCandidate] using hc
      | succ k' =>
        have hr := ih (i + 1) h k' (by omega)
        have harith : i + 1 + k' = i + (k' + 1) := by omega
        rwa [harith] at hr
    · rw [if_neg hc] at h
      exact absurd h (by simp)

lemma findRev_some_spec (existing : List String) (base : String) :
    ∀ fuel i c, findRev existing base fuel i = some c →
      ∃ k, k < fuel ∧ c = revCandidate base (i + k) ∧ c ∉ existing ∧
        ∀ m, m < k → revCandidate base (i + m) ∈ existing := by
  intro fuel
  induction fuel with
  | zero => intro i c h; simp [findRev] at h
  | succ f ih =>
    intro i c h
    unfold findRev at h
    by_cases hc : (base ++ "-REV" ++ Nat.repr i) ∈ existing
    · rw [if_pos hc] at h
      rcases ih (i + 1) c h with ⟨k, hk, hc1, hc2, hc3⟩
      refine ⟨k + 1, by omega, ?_, hc2, ?_⟩
      · rw [hc1]
        congr 1
        omega
      · intro m hm
        cases m with
        | zero => simpa [revCandidate] using hc
        | succ m' =>
          have hr := hc3 m' (by omega)
          have harith : i + 1 + m' = i + (m' + 1) := by omega
          rwa [harith] at hr
    · rw [if_neg hc] at h
      have hcc : c = base ++ "-REV" ++ Nat.repr i := by
        have := h.symm
        simpa using this
      refine ⟨0, by omega, ?_, ?_, ?_⟩
      · rw [hcc]
        simp [revCandidate]
      · rw [hcc]
        exact hc
      · intro m hm
        omega

lemma findRev_succeeds (existing : List String) (base : String) (hbase : base ∈ existing) :
    ∃ c, findRev existing base existing.length 1 = some c := by
  rcases hfr : findRev existing base existing.length 1 with _ | c
  · exfalso
    have hall : ∀ k, k < existing.length → revCandidate base (1 + k) ∈ existing :=
      findRev_none_spec existing base existing.length 1 hfr
    classical
    have hsub : insert base
        ((Finset.range existing.length).image (fun k => revCandidate base (1 + k)))
        ⊆ existing.toFinset := by
      intro x hx
      rcases Finset.mem_insert.mp hx with rfl | hx
      · exact List.mem_toFinset.mpr hbase
      · rcases Finset.mem_image.mp hx with ⟨k, hk, rfl⟩
        exact List.mem_toFinset.mpr (hall k (Finset.mem_range.mp hk))
    have hinj : Set.InjOn (fun k => revCandidate base (1 + k))
        (Finset.range existing.length) := by
      intro a _ b _ hab
      have := revCandidate_inj base (1 + a) (1 + b) hab
      omega
    have hbnotin : base ∉
        (Finset.range existing.length).image (fun k => revCandidate base (1 + k)) := by
      intro hbx
      rcases Finset.mem_image.mp hbx with ⟨k, _, hk⟩
      exact base_ne_revCandidate base (1 + k) hk.symm
    have hcard : (insert base
        ((Finset.range existing.length).image (fun k => revCandidate base (1 + k)))).card =
        existing.length + 1 := by
      rw [Finset.card_insert_of_not_mem hbnotin, Finset.card_image_of_injOn hinj,
        Finset.card_range]
    have hle := Finset.card_le_card hsub
    have hlen : existing.toFinset.card ≤ existing.length := existing.toFinset_card_le
    omega
  · exact ⟨c, rfl⟩

/-- C5 counterexample: with no existing names the base name `" A"` is not
taken, yet the resolver returns the trimmed `"A"` — not the base name
unmodified, refuting the claim for untrimmed base names. -/
theorem get_unique_name_cex :
    get_unique_bom_creator_name [] " A" = "A" ∧ (" A" : String) ≠ "A" := by
  constructor
  · rfl
  · decide

/-- C5 (amended): for every finite set of existing names and every base
name, the resolver terminates and returns the *trimmed* base name
unmodified when that is not taken; otherwise it returns the first free
candidate among trimmed-base-REV1, -REV2, …, reached within at most
`existing.length` probes after the base-name check (so at most
`existing.length + 1` candidate checks in total). -/
theorem get_unique_name_spec (existing : List String) (base_name : String) :
    (pyStrip base_name ∉ existing →
      get_unique_bom_creator_name existing base_name = pyStrip base_name) ∧
    (pyStrip base_name ∈ existing →
      ∃ k, 1 ≤ k ∧ k ≤ existing.length ∧
        get_unique_bom_creator_name existing base_name =
          pyStrip base_name ++ "-REV" ++ Nat.repr k ∧
        get_unique_bom_creator_name existing base_name ∉ existing ∧
        ∀ m, 1 ≤ m → m < k →
          (pyStrip base_name ++ "-REV" ++ Nat.repr m) ∈ existing) := by
  constructor
  · intro h
    unfold get_unique_bom_creator_name
    rw [if_neg h]
  · intro h
    rcases findRev_succeeds existing (pyStrip base_name) h with ⟨c, hc⟩
    rcases findRev_some_spec existing (pyStrip base_name) existing.length 1 c hc with
      ⟨k0, hk0, hceq, hcnot, hall⟩
    have hres : get_unique_bom_creator_name existing base_name = c := by
      unfold get_unique_bom_creator_name
      rw [if_pos h, hc]
      rfl
    refine ⟨1 + k0, by omega, by omega, ?_, ?_, ?_⟩
    · rw [hres, hceq]
      rfl
    · rw [hres]
      exact hcnot
    · intro m hm1 hm2
      have hr := hall (m - 1) (by omega)
      have harith : 1 + (m - 1) = m := by omega
      rw [harith] at hr
      exact hr

/-- C5 witness: base `"ITEM-100"` with itself and `"ITEM-100-REV1"`
already taken resolves to `"ITEM-100-REV2"` within two probes. -/
theorem get_unique_name_spec_witness :
    ∃ k, 1 ≤ k ∧ k ≤ (["ITEM-100", "ITEM-100-REV1"] : List String).length ∧
      get_unique_bom_creator_name ["ITEM-100", "ITEM-100-REV1"] "ITEM-100" =
        pyStrip "ITEM-100" ++ "-REV" ++ Nat.repr k ∧
      get_unique_bom_creator_name ["ITEM-100", "ITEM-100-REV1"] "ITEM-100" ∉
        (["ITEM-100", "ITEM-100-REV1"] : List String) ∧
      ∀ m, 1 ≤ m → m < k →
        (pyStrip "ITEM-100" ++ "-REV" ++ Nat.repr m) ∈
          (["ITEM-100", "ITEM-100-REV1"] : List String) :=
  (get_unique_name_spec ["ITEM-100", "ITEM-100-REV1"] "ITEM-100").2 (by decide)

/-! ## C6 — abort-class conditions persist nothing -/

/-- The abort-class conditions of `import_bom_creator`: missing
attachment, unsupported extension, empty or too-short file, missing
required column, empty node list, missing root item, missing default
company or currency. -/
def bomAbort (env : Env) (db : Db) : Prop :=
  env.plm_file = false ∨
  ¬ extOk env ∨
  env.rows.length < 2 ∨
  ¬ (hmOf env).any (fun p => p.2 == "structure_level") ∨
  ¬ (hmOf env).any (fun p => p.2 == "item_code") ∨
  nodesOf env = [] ∨
  (∃ root kept, chooseRoot (nodesOf env) = some (root, kept) ∧ root.item_code ∉ db.items) ∨
  env.company = Option.none ∨
  env.currency = Option.none

lemma import_bom_ok_not_abort (env : Env) (db : Db) (r : BomResult)
    (h : import_bom_creator env db = Except.ok r) : ¬ bomAbort env db := by
  unfold import_bom_creator at h
  by_cases h1 : env.plm_file = false
  · rw [if_pos h1] at h
    exact absurd h (by simp)
  · rw [if_neg h1] at h
    by_cases h2 : extOk env
    · rw [if_neg (not_not_intro h2)] at h
      by_cases h3 : env.rows.length < 2
      · rw [if_pos h3] at h
        exact absurd h (by simp)
      · rw [if_neg h3] at h
        by_cases h4 : (hmOf env).any (fun p => p.2 == "structure_level")
        · rw [if_neg (not_not_intro h4)] at h
          by_cases h5 : (hmOf env).any (fun p => p.2 == "item_code")
          · rw [if_neg (not_not_intro h5)] at h
            by_cases h6 : nodesOf env = []
            · rw [if_pos h6] at h
              exact absurd h (by simp)
            · rw [if_neg h6] at h
              rcases hcr : chooseRoot (nodesOf env) with _ | ⟨root, kept⟩
              · rw [hcr] at h
                exact absurd h (by simp)
              · rw [hcr] at h
                simp only at h
                by_cases h7 : root.item_code ∈ db.items
                · rw [if_neg (not_not_intro h7)] at h
                  rcases hco : env.company with _ | company
                  · rw [hco] at h
                    exact absurd h (by simp)
                  · rw [hco] at h
                    rcases hcu : env.currency with _ | currency
                    · rw [hcu] at h
                      exact absurd h (by simp)
                    · intro hab
                      rcases hab with hx | hx | hx | hx | hx | hx | hx | hx | hx
                      · exact h1 hx
                      · exact hx h2
                      · exact h3 hx
                      · exact hx h4
                      · exact hx h5
                      · exact h6 hx
                      · rcases hx with ⟨root', kept', hcr', hmem⟩
                        rw [hcr] at hcr'
                        have hpq := Option.some.inj hcr'
                        have hroot : root = root' := congrArg Prod.fst hpq
                        rw [← hroot] at hmem
                        exact hmem h7
                      · rw [hco] at hx
                        exact Option.noConfusion hx
                      · rw [hcu] at hx
                        exact Option.noConfusion hx
                · rw [if_pos h7] at h
                  exact absurd h (by simp)
          · rw [if_pos h5] at h
            exact absurd h (by simp)
        · rw [if_pos h4] at h
          exact absurd h (by simp)
    · rw [if_pos h2] at h
      exact absurd h (by simp)

/-- C6: whenever an abort-class condition holds (missing attachment,
unsupported extension, empty/too-short file, missing required column,
empty node list, missing root item, missing default company or currency),
`import_bom_creator` returns a thrown error: no result is produced, so
nothing is persisted and there are no counters. -/
theorem import_bom_abort_throws (env : Env) (db : Db) (h : bomAbort env db) :
    ∃ e, import_bom_creator env db = Except.error e := by
  rcases hr : import_bom_creator env db with e | r
  · exact ⟨e, rfl⟩
  · exact absurd h (import_bom_ok_not_abort env db r hr)

/-- C6 witness: the theorem applied to a request with no attachment. -/
theorem import_bom_abort_throws_witness :
    ∃ e, import_bom_creator { envW with plm_file := false } dbW = Except.error e :=
  import_bom_abort_throws { envW with plm_file := false } dbW (Or.inl rfl)

/-! ## C9 — the 5-row end-to-end example -/

/-- C9 counterexample: on the specification's 5-row example file the run
succeeds but produces 3 non-root rows and the summary counters read
`Items: 3, Skipped: 0, Errors: 0` — not 4, as a header row plus a root
plus three descendants leave only three non-root rows. -/
theorem import_bom_example_cex :
    (import_bom_creator envW dbW).map (fun r => (r.bom_creator.items.length, r.summary)) =
      Except.ok (3, "Created BOM Creator R. Items: 3, Skipped: 0, Errors: 0.") ∧
    (import_bom_creator envW dbW).map (fun r => r.bom_creator.items.length) ≠
      Except.ok 4 := by
  constructor
  · rfl
  · have h3 : (import_bom_creator envW dbW).map (fun r => r.bom_creator.items.length) =
        Except.ok 3 := rfl
    rw [h3]
    simp

/-- C9 (amended): the 5-row example yields exactly three non-root rows
with correct parent row-number linkage — both level-1 children attach to
the root (no parent row number), the level-2 grandchild attaches to the
second child via its assigned row number 2 — and the summary counters
read `Items: 3, Skipped: 0, Errors: 0.`. -/
theorem import_bom_example :
    (import_bom_creator envW dbW).map (fun r =>
        (r.bom_creator.items.map (fun it => (it.item_code, it.fg_item, it.parent_row_no, it.idx)),
         r.summary, r.skipped, r.errors)) =
      Except.ok ([("A", "R", Option.none, 1), ("B", "R", Option.none, 2),
        ("C", "B", some 2, 3)],
        "Created BOM Creator R. Items: 3, Skipped: 0, Errors: 0.", 0, 0) := rfl

/-! ## C10 — silently excluded rows and level coercion -/

/-- A non-blank data row that the node-collection loop silently excludes:
its structure-level cell is missing or empty, or its item code is empty
after trimming. -/
def silentRow (env : Env) (hm : List (Nat × String)) (row : List Cell) : Prop :=
  row.any cellTruthy = true ∧
    (slEmpty (rowGet (extract_row_data hm row) "structure_level") = true ∨
      pyStrip (cstr env.numRepr (rowGet (extract_row_data hm row) "item_code")) = "")

lemma parseRow_silent (env : Env) (hm : List (Nat × String)) (i : Nat) (row : List Cell)
    (h : silentRow env hm row) : parseRow env hm i row = Option.none := by
  rcases h with ⟨hany, hcond⟩
  unfold parseRow
  rw [if_neg (not_not_intro hany)]
  simp only
  rcases hcond with hsl | hcode
  · rw [if_pos hsl]
  · by_cases hsl : slEmpty (rowGet (extract_row_data hm row) "structure_level")
    · rw [if_pos hsl]
    · rw [if_neg hsl, if_pos hcode]

lemma parseRow_level (env : Env) (hm : List (Nat × String)) (i : Nat) (row : List Cell)
    (n : Node) (h : parseRow env hm i row = some n) :
    n.level = cintCell env.pf (rowGet (extract_row_data hm row) "structure_level") := by
  unfold parseRow at h
  by_cases h1 : ¬ row.any cellTruthy
  · rw [if_pos h1] at h
    exact absurd h (by simp)
  · rw [if_neg h1] at h
    simp only at h
    by_cases h2 : slEmpty (rowGet (extract_row_data hm row) "structure_level")
    · rw [if_pos h2] at h
      exact absurd h (by simp)
    · rw [if_neg h2] at h
      by_cases h3 : pyStrip (cstr env.numRepr (rowGet (extract_row_data hm row) "item_code")) = ""
      · rw [if_pos h3] at h
        exact absurd h (by simp)
      · rw [if_neg h3] at h
        have hn := Option.some.inj h
        rw [← hn]

lemma hmOf_append (env : Env) (bad : List Cell) (hne : env.rows ≠ []) :
    hmOf { env with rows := env.rows ++ [bad] } = hmOf env := by
  unfold hmOf
  rcases hrows : env.rows with _ | ⟨r0, rest⟩
  · exact absurd hrows hne
  · rfl

lemma nodesOf_append_silent (env : Env) (bad : List Cell)
    (hb : silentRow env (hmOf env) bad) (hne : env.rows ≠ []) :
    nodesOf { env with rows := env.rows ++ [bad] } = nodesOf env := by
  have hpr : parseRow { env with rows := env.rows ++ [bad] } = parseRow env := rfl
  unfold nodesOf parseNodes
  rw [hmOf_append env bad hne, hpr]
  dsimp only
  rcases hrows : env.rows with _ | ⟨r0, rest⟩
  · exact absurd hrows hne
  · simp only [List.cons_append, List.drop_succ_cons, List.drop_zero]
    rw [List.enumFrom_append, List.filterMap_append]
    have hnone : parseRow env (hmOf env) (2 + rest.length) bad = Option.none :=
      parseRow_silent env (hmOf env) (2 + rest.length) bad hb
    simp [List.enumFrom, hnone]

lemma import_bom_append_silent (env : Env) (bad : List Cell) (db : Db)
    (hb : silentRow env (hmOf env) bad) (hlen : 2 ≤ env.rows.length) :
    import_bom_creator { env with rows := env.rows ++ [bad] } db =
      import_bom_creator env db := by
  have hne : env.rows ≠ [] := by
    intro h0
    rw [h0] at hlen
    simp at hlen
  have hsuc : bomSuccess { env with rows := env.rows ++ [bad] } = bomSuccess env := rfl
  unfold import_bom_creator
  dsimp only
  rw [hmOf_append env bad hne, nodesOf_append_silent env bad hb hne, hsuc]
  by_cases hpf : env.plm_file = false
  · rw [if_pos hpf, if_pos hpf]
  · rw [if_neg hpf, if_neg hpf]
    by_cases hex : extOk env
    · have hex2 : extOk { env with rows := env.rows ++ [bad] } := hex
      rw [if_neg (not_not_intro hex2), if_neg (not_not_intro hex)]
      have hL1 : ¬ ((env.rows ++ [bad]).length < 2) := by
        rw [List.length_append]
        omega
      have hL0 : ¬ (env.rows.length < 2) := by omega
      rw [if_neg hL1, if_neg hL0]
    · have hex2 : ¬ extOk { env with rows := env.rows ++ [bad] } := hex
      rw [if_pos hex2, if_pos hex]

/-- C10: a non-blank data row whose structure-level cell is empty or
missing, or whose item code is empty after trimming, is silently
excluded — it contributes no node, and appending such a row to the file
leaves the whole `import_bom_creator` result (log lines and counters
included) unchanged; and a non-numeric structure-level cell is coerced to
level 0 by `cint`, so such a row can become the minimum-level root. -/
theorem silent_rows_and_level_coercion (env : Env) (hm : List (Nat × String)) (i : Nat)
    (row bad : List Cell) (db : Db)
    (hb : silentRow env (hmOf env) bad) (hlen : 2 ≤ env.rows.length) :
    (silentRow env hm row → parseRow env hm i row = Option.none) ∧
    import_bom_creator { env with rows := env.rows ++ [bad] } db =
      import_bom_creator env db ∧
    (∀ s : String,
      rowGet (extract_row_data hm row) "structure_level" = some (Cell.str s) →
      env.pf s = Option.none →
      ∀ n, parseRow env hm i row = some n → n.level = 0) := by
  refine ⟨fun h => parseRow_silent env hm i row h,
    import_bom_append_silent env bad db hb hlen, ?_⟩
  intro s hs hpf n hn
  rw [parseRow_level env hm i row n hn, hs]
  show (Option.map truncRat (env.pf s)).getD 0 = 0
  rw [hpf]
  rfl

/-- C10 witness: the theorem applied to a one-cell row (non-blank, no
structure level) and to a row whose level cell `"abc"` is non-numeric. -/
theorem silent_rows_and_level_coercion_witness :
    parseRow envW (hmOf envW) 2 [Cell.str "X"] = Option.none ∧
    import_bom_creator { envW with rows := envW.rows ++ [[Cell.str "X"]] } dbW =
      import_bom_creator envW dbW ∧
    (mkNode 2 0 "Y").level = 0 := by
  have h1 := silent_rows_and_level_coercion envW (hmOf envW) 2 [Cell.str "X"]
    [Cell.str "X"] dbW ⟨by decide, Or.inl (by decide)⟩ (by decide)
  have h2 := silent_rows_and_level_coercion envW (hmOf envW) 2 [Cell.str "Y", Cell.str "abc"]
    [Cell.str "X"] dbW ⟨by decide, Or.inl (by decide)⟩ (by decide)
  refine ⟨h1.1 ⟨by decide, Or.inl (by decide)⟩, h1.2.1, ?_⟩
  exact h2.2.2 "abc" (by decide) (by decide) (mkNode 2 0 "Y") (by decide)

/-! ## C7 — per-row failures are counted and the batch continues -/

lemma rowAction_blank_iff (env : Env) (hm : List (Nat × String)) (db : Db) (i : Nat)
    (row : List Cell) :
    (rowAction env hm db i row).1 = RowOutcome.blank ↔ ¬ row.any cellTruthy = true := by
  unfold rowAction
  by_cases h1 : ¬ row.any cellTruthy = true
  · rw [if_pos h1]
    simpa using h1
  · rw [if_neg h1]
    by_cases h2 : itemCodeOf env hm row = ""
    · rw [if_pos h2]
      exact iff_of_false (by simp) h1
    · rw [if_neg h2]
      by_cases h3 : itemGroupOf env hm row = ""
      · rw [if_pos h3]
        exact iff_of_false (by simp) h1
      · rw [if_neg h3]
        rcases hens : ensure_item_group env db (itemGroupOf env hm row) with _ | ⟨g, db1⟩
        · exact iff_of_false (by simp) h1
        · simp only
          by_cases h4 : itemCodeOf env hm row ∈ db1.items
          · rw [if_pos h4]
            exact iff_of_false (by simp) h1
          · rw [if_neg h4]
            by_cases h5 : env.insertOk (itemCodeOf env hm row)
            · rw [if_pos h5]
              exact iff_of_false (by simp) h1
            · rw [if_neg h5]
              exact iff_of_false (by simp) h1

lemma itemsStep_counts (env : Env) (hm : List (Nat × String)) (s : ItemsState)
    (p : Nat × List Cell) :
    (itemsStep env hm s p).created + (itemsStep env hm s p).duplicates +
      (itemsStep env hm s p).skipped + (itemsStep env hm s p).errors =
      s.created + s.duplicates + s.skipped + s.errors +
        (if p.2.any cellTruthy then 1 else 0) ∧
    (itemsStep env hm s p).outcomes.length = s.outcomes.length + 1 := by
  rcases hra : rowAction env hm s.db p.1 p.2 with ⟨o, db1, ls, doc⟩
  have hb := rowAction_blank_iff env hm s.db p.1 p.2
  rw [hra] at hb
  simp only at hb
  unfold itemsStep
  rw [hra]
  simp only
  constructor
  · by_cases hany : p.2.any cellTruthy
    · have ho : o ≠ RowOutcome.blank := fun hx => (hb.mp hx) hany
      rw [if_pos hany]
      cases o <;> simp_all <;> omega
    · have ho : o = RowOutcome.blank := hb.mpr hany
      subst ho
      rw [if_neg hany]
      simp
  · simp

lemma runItems_counts (env : Env) (hm : List (Nat × String)) :
    ∀ (rows : List (Nat × List Cell)) (s : ItemsState),
    (runItems env hm s rows).created + (runItems env hm s rows).duplicates +
      (runItems env hm s rows).skipped + (runItems env hm s rows).errors =
      s.created + s.duplicates + s.skipped + s.errors +
        rows.countP (fun p => p.2.any cellTruthy) ∧
    (runItems env hm s rows).outcomes.length = s.outcomes.length + rows.length := by
  intro rows
  induction rows with
  | nil => intro s; simp [runItems]
  | cons p ps ih =>
    intro s
    have hfc : runItems env hm s (p :: ps) = runItems env hm (itemsStep env hm s p) ps := rfl
    rw [hfc]
    have hstep := itemsStep_counts env hm s p
    have hih := ih (itemsStep env hm s p)
    rw [List.countP_cons]
    constructor
    · rw [hih.1, hstep.1]
      by_cases hb : p.2.any cellTruthy
      · simp [hb]
        omega
      · simp [hb]
    · rw [hih.2, hstep.2]
      simp
      omega

lemma buildStep_counts (env : Env) (db : Db) (s : BuildState) (n : Node) :
    (buildStep env db s n).created + (buildStep env db s n).skipped +
      (buildStep env db s n).errors = s.created + s.skipped + s.errors + 1 ∧
    (buildStep env db s n).outcomes.length = s.outcomes.length + 1 := by
  unfold buildStep
  rcases hdw : s.stack.dropWhile (fun f => decide (n.level ≤ f.level)) with _ | ⟨parent, rest⟩
  · rw [hdw]
    simp_arith
  · rw [hdw]
    split_ifs <;> simp_arith

lemma runBuild_counts (env : Env) (db : Db) :
    ∀ (nodes : List Node) (s : BuildState),
    (nodes.foldl (buildStep env db) s).created + (nodes.foldl (buildStep env db) s).skipped +
      (nodes.foldl (buildStep env db) s).errors =
      s.created + s.skipped + s.errors + nodes.length ∧
    (nodes.foldl (buildStep env db) s).outcomes.length = s.outcomes.length + nodes.length := by
  intro nodes
  induction nodes with
  | nil => intro s; simp
  | cons n ns ih =>
    intro s
    rw [List.foldl_cons]
    have hstep := buildStep_counts env db s n
    have hih := ih (buildStep env db s n)
    constructor
    · rw [hih.1, hstep.1]
      simp
      omega
    · rw [hih.2, hstep.2]
      simp
      omega

/-- C7: no single bad row aborts a batch.  In the `import_items` loop
every non-blank row receives exactly one outcome and increments exactly
one of the four counters (their sum equals the number of non-blank rows,
and the outcome trace has one entry per row, blank rows included); in the
`import_bom_creator` loop every node is counted into created, skipped or
errors, with one outcome per node — so processing always reaches the end
of the row list. -/
theorem per_row_failures_counted (env : Env) (hm : List (Nat × String)) (db : Db)
    (rows : List (Nat × List Cell)) (root : Node) (nodes : List Node) :
    ((runItems env hm (itemsInit db) rows).created +
        (runItems env hm (itemsInit db) rows).duplicates +
        (runItems env hm (itemsInit db) rows).skipped +
        (runItems env hm (itemsInit db) rows).errors =
          rows.countP (fun p => p.2.any cellTruthy) ∧
      (runItems env hm (itemsInit db) rows).outcomes.length = rows.length) ∧
    ((runBuild env db root nodes).created + (runBuild env db root nodes).skipped +
        (runBuild env db root nodes).errors = nodes.length ∧
      (runBuild env db root nodes).outcomes.length = nodes.length) := by
  constructor
  · have h := runItems_counts env hm rows (itemsInit db)
    constructor
    · rw [h.1]
      simp [itemsInit]
    · rw [h.2]
      simp [itemsInit]
  · have h := runBuild_counts env db nodes (buildInit root)
    constructor
    · rw [runBuild, h.1]
      simp [buildInit]
    · rw [runBuild, h.2]
      simp [buildInit]

/-! ## C8 — running the flat-item import twice -/

/-- Second-run outcome of a row as a function of its first-run outcome:
created rows become duplicates, every other outcome repeats. -/
def promote : RowOutcome → RowOutcome
  | RowOutcome.createdRow => RowOutcome.duplicateRow
  | o => o

lemma rowAction_db_facts (env : Env) (hm : List (Nat × String)) (db : Db) (i : Nat)
    (row : List Cell) :
    (∀ c ∈ db.items, c ∈ (rowAction env hm db i row).2.1.items) ∧
    (∀ g ∈ db.groups, g ∈ (rowAction env hm db i row).2.1.groups) ∧
    (∀ c ∈ (rowAction env hm db i row).2.1.items, c ∈ db.items ∨ env.insertOk c = true) ∧
    (∀ g ∈ (rowAction env hm db i row).2.1.groups,
      g ∈ db.groups ∨ env.groupCreateOk g = true) := by
  have htriv : (∀ c ∈ db.items, c ∈ db.items) ∧ (∀ g ∈ db.groups, g ∈ db.groups) ∧
      (∀ c ∈ db.items, c ∈ db.items ∨ env.insertOk c = true) ∧
      (∀ g ∈ db.groups, g ∈ db.groups ∨ env.groupCreateOk g = true) :=
    ⟨fun _ hc => hc, fun _ hg => hg, fun _ hc => Or.inl hc, fun _ hg => Or.inl hg⟩
  unfold rowAction
  by_cases h1 : ¬ row.any cellTruthy
  · rw [if_pos h1]
    exact htriv
  · rw [if_neg h1]
    by_cases h2 : itemCodeOf env hm row = ""
    · rw [if_pos h2]
      exact htriv
    · rw [if_neg h2]
      by_cases h3 : itemGroupOf env hm row = ""
      · rw [if_pos h3]
        exact htriv
      · rw [if_neg h3]
        unfold ensure_item_group
        by_cases h4 : itemGroupOf env hm row ∈ db.groups
        · rw [if_pos h4]
          simp only
          by_cases h5 : itemCodeOf env hm row ∈ db.items
          · rw [if_pos h5]
            exact htriv
          · rw [if_neg h5]
            by_cases h6 : env.insertOk (itemCodeOf env hm row)
            · rw [if_pos h6]
              refine ⟨fun c hc => List.mem_append_left _ hc, fun g hg => hg, ?_, 
                fun g hg => Or.inl hg⟩
              intro c hc
              rcases List.mem_append.mp hc with hc | hc
              · exact Or.inl hc
              · right
                rw [List.mem_singleton.mp hc]
                exact h6
            · rw [if_neg h6]
              exact htriv
        · rw [if_neg h4]
          by_cases h7 : env.groupCreateOk (itemGroupOf env hm row)
          · rw [if_pos h7]
            simp only
            by_cases h5 : itemCodeOf env hm row ∈ db.items
            · rw [if_pos h5]
              refine ⟨fun c hc => hc, fun g hg => List.mem_append_left _ hg,
                fun c hc => Or.inl hc, ?_⟩
              intro g hg
              rcases List.mem_append.mp hg with hg | hg
              · exact Or.inl hg
              · right
                rw [List.mem_singleton.mp hg]
                exact h7
            · rw [if_neg h5]
              by_cases h6 : env.insertOk (itemCodeOf env hm row)
              · rw [if_pos h6]
                refine ⟨fun c hc => List.mem_append_left _ hc,
                  fun g hg => List.mem_append_left _ hg, ?_, ?_⟩
                · intro c hc
                  rcases List.mem_append.mp hc with hc | hc
                  · exact Or.inl hc
                  · right
                    rw [List.mem_singleton.mp hc]
                    exact h6
                · intro g hg
                  rcases List.mem_append.mp hg with hg | hg
                  · exact Or.inl hg
                  · right
                    rw [List.mem_singleton.mp hg]
                    exact h7
              · rw [if_neg h6]
                refine ⟨fun c hc => hc, fun g hg => List.mem_append_left _ hg,
                  fun c hc => Or.inl hc, ?_⟩
                intro g hg
                rcases List.mem_append.mp hg with hg | hg
                · exact Or.inl hg
                · right
                  rw [List.mem_singleton.mp hg]
                  exact h7
          · rw [if_neg h7]
            exact htriv

lemma itemsStep_db (env : Env) (hm : List (Nat × String)) (s : ItemsState)
    (p : Nat × List Cell) :
    (itemsStep env hm s p).db = (rowAction env hm s.db p.1 p.2).2.1 := by
  unfold itemsStep
  rcases rowAction env hm s.db p.1 p.2 with ⟨o, db1, ls, doc⟩
  rfl

lemma itemsStep_outcomes (env : Env) (hm : List (Nat × String)) (s : ItemsState)
    (p : Nat × List Cell) :
    (itemsStep env hm s p).outcomes = s.outcomes ++ [(rowAction env hm s.db p.1 p.2).1] := by
  unfold itemsStep
  rcases rowAction env hm s.db p.1 p.2 with ⟨o, db1, ls, doc⟩
  rfl

lemma itemsStep_created (env : Env) (hm : List (Nat × String)) (s : ItemsState)
    (p : Nat × List Cell) :
    (itemsStep env hm s p).created =
      s.created + (if (rowAction env hm s.db p.1 p.2).1 = RowOutcome.createdRow then 1 else 0) := by
  unfold itemsStep
  rcases rowAction env hm s.db p.1 p.2 with ⟨o, db1, ls, doc⟩
  rfl

lemma runItems_db_mono (env : Env) (hm : List (Nat × String)) :
    ∀ (rows : List (Nat × List Cell)) (s : ItemsState),
    (∀ c ∈ s.db.items, c ∈ (runItems env hm s rows).db.items) ∧
    (∀ g ∈ s.db.groups, g ∈ (runItems env hm s rows).db.groups) := by
  intro rows
  induction rows with
  | nil => intro s; exact ⟨fun _ hc => hc, fun _ hg => hg⟩
  | cons p ps ih =>
    intro s
    have hfc : runItems env hm s (p :: ps) = runItems env hm (itemsStep env hm s p) ps := rfl
    rw [hfc]
    have hstep := rowAction_db_facts env hm s.db p.1 p.2
    have hih := ih (itemsStep env hm s p)
    rw [itemsStep_db] at hih
    constructor
    · intro c hc
      exact hih.1 c (hstep.1 c hc)
    · intro g hg
      exact hih.2 g (hstep.2.1 g hg)

lemma runItems_db_prov (env : Env) (hm : List (Nat × String)) :
    ∀ (rows : List (Nat × List Cell)) (s : ItemsState),
    (∀ c ∈ (runItems env hm s rows).db.items, c ∈ s.db.items ∨ env.insertOk c = true) ∧
    (∀ g ∈ (runItems env hm s rows).db.groups,
      g ∈ s.db.groups ∨ env.groupCreateOk g = true) := by
  intro rows
  induction rows with
  | nil => intro s; exact ⟨fun _ hc => Or.inl hc, fun _ hg => Or.inl hg⟩
  | cons p ps ih =>
    intro s
    have hfc : runItems env hm s (p :: ps) = runItems env hm (itemsStep env hm s p) ps := rfl
    rw [hfc]
    have hstep := rowAction_db_facts env hm s.db p.1 p.2
    have hih := ih (itemsStep env hm s p)
    rw [itemsStep_db] at hih
    constructor
    · intro c hc
      rcases hih.1 c hc with h | h
      · exact hstep.2.2.1 c h
      · exact Or.inr h
    · intro g hg
      rcases hih.2 g hg with h | h
      · exact hstep.2.2.2 g h
      · exact Or.inr h

lemma runItems_outcomes_extend (env : Env) (hm : List (Nat × String)) :
    ∀ (rows : List (Nat × List Cell)) (s : ItemsState),
    ∃ t, (runItems env hm s rows).outcomes = s.outcomes ++ t := by
  intro rows
  induction rows with
  | nil => intro s; exact ⟨[], by simp [runItems]⟩
  | cons p ps ih =>
    intro s
    have hfc : runItems env hm s (p :: ps) = runItems env hm (itemsStep env hm s p) ps := rfl
    rw [hfc]
    rcases ih (itemsStep env hm s p) with ⟨t, ht⟩
    refine ⟨(rowAction env hm s.db p.1 p.2).1 :: t, ?_⟩
    rw [ht, itemsStep_outcomes]
    simp

lemma runItems_created_count (env : Env) (hm : List (Nat × String)) :
    ∀ (rows : List (Nat × List Cell)) (s : ItemsState),
    (runItems env hm s rows).created + s.outcomes.count RowOutcome.createdRow =
      s.created + (runItems env hm s rows).outcomes.count RowOutcome.createdRow := by
  intro rows
  induction rows with
  | nil => intro s; simp [runItems]
  | cons p ps ih =>
    intro s
    have hfc : runItems env hm s (p :: ps) = runItems env hm (itemsStep env hm s p) ps := rfl
    rw [hfc]
    have hih := ih (itemsStep env hm s p)
    rw [itemsStep_created, itemsStep_outcomes, List.count_append] at hih
    have hcount : List.count RowOutcome.createdRow [(rowAction env hm s.db p.1 p.2).1] =
        if (rowAction env hm s.db p.1 p.2).1 = RowOutcome.createdRow then 1 else 0 := by
      by_cases hc : (rowAction env hm s.db p.1 p.2).1 = RowOutcome.createdRow
      · simp [hc]
      · simp [List.count_cons, hc]
    rw [hcount] at hih
    by_cases hc : (rowAction env hm s.db p.1 p.2).1 = RowOutcome.createdRow
    · rw [if_pos hc] at hih
      omega
    · rw [if_neg hc] at hih
      omega

lemma promote_ne_created (o : RowOutcome) : promote o ≠ RowOutcome.createdRow := by
  cases o <;> simp [promote]

lemma count_created_map_promote (l : List RowOutcome) :
    (l.map promote).count RowOutcome.createdRow = 0 := by
  rw [List.count_eq_zero]
  intro h
  rcases List.mem_map.mp h with ⟨o, _, ho⟩
  exact promote_ne_created o ho

lemma rowAction_second_run (env : Env) (hm : List (Nat × String)) (db1 db2 : Db)
    (i : Nat) (row : List Cell)
    (hm1 : ∀ c ∈ (rowAction env hm db1 i row).2.1.items, c ∈ db2.items)
    (hm2 : ∀ g ∈ (rowAction env hm db1 i row).2.1.groups, g ∈ db2.groups)
    (hc1 : ∀ c ∈ db2.items, c ∈ db1.items ∨ env.insertOk c = true)
    (hc2 : ∀ g ∈ db2.groups, g ∈ db1.groups ∨ env.groupCreateOk g = true) :
    (rowAction env hm db2 i row).1 = promote (rowAction env hm db1 i row).1 ∧
    (rowAction env hm db2 i row).2.1 = db2 := by
  unfold rowAction at hm1 hm2 ⊢
  by_cases h1 : ¬ row.any cellTruthy
  · simp only [if_pos h1]
    exact ⟨by trivial, by trivial⟩
  · simp only [if_neg h1] at hm1 hm2 ⊢
    by_cases h2 : itemCodeOf env hm row = ""
    · simp only [if_pos h2]
      exact ⟨by trivial, by trivial⟩
    · simp only [if_neg h2] at hm1 hm2 ⊢
      by_cases h3 : itemGroupOf env hm row = ""
      · simp only [if_pos h3]
        exact ⟨by trivial, by trivial⟩
      · simp only [if_neg h3] at hm1 hm2 ⊢
        unfold ensure_item_group at hm1 hm2 ⊢
        by_cases h4 : itemGroupOf env hm row ∈ db1.groups
        · simp only [if_pos h4] at hm1 hm2 ⊢
          by_cases h5 : itemCodeOf env hm row ∈ db1.items
          · simp only [if_pos h5] at hm1 hm2 ⊢
            have hG2 : itemGroupOf env hm row ∈ db2.groups := hm2 _ h4
            have h52 : itemCodeOf env hm row ∈ db2.items := hm1 _ h5
            simp only [if_pos hG2, if_pos h52]
            exact ⟨by trivial, by trivial⟩
          · simp only [if_neg h5] at hm1 hm2 ⊢
            by_cases h6 : env.insertOk (itemCodeOf env hm row)
            · simp only [if_pos h6] at hm1 hm2 ⊢
              have hG2 : itemGroupOf env hm row ∈ db2.groups := hm2 _ h4
              have h52 : itemCodeOf env hm row ∈ db2.items :=
                hm1 _ (List.mem_append_right _ (List.mem_singleton.mpr rfl))
              simp only [if_pos hG2, if_pos h52]
              exact ⟨by trivial, by trivial⟩
            · simp only [if_neg h6] at hm1 hm2 ⊢
              have hG2 : itemGroupOf env hm row ∈ db2.groups := hm2 _ h4
              have h52 : itemCodeOf env hm row ∉ db2.items := by
                intro hmem
                rcases hc1 _ hmem with h | h
                · exact h5 h
                · exact h6 h
              simp only [if_pos hG2, if_neg h52, if_neg h6]
              exact ⟨by trivial, by trivial⟩
        · simp only [if_neg h4] at hm1 hm2 ⊢
          by_cases h7 : env.groupCreateOk (itemGroupOf env hm row)
          · simp only [if_pos h7] at hm1 hm2 ⊢
            by_cases h5 : itemCodeOf env hm row ∈ db1.items
            · simp only [if_pos h5] at hm1 hm2 ⊢
              have hG2 : itemGroupOf env hm row ∈ db2.groups :=
                hm2 _ (List.mem_append_right _ (List.mem_singleton.mpr rfl))
              have h52 : itemCodeOf env hm row ∈ db2.items := hm1 _ h5
              simp only [if_pos hG2, if_pos h52]
              exact ⟨by trivial, by trivial⟩
            · simp only [if_neg h5] at hm1 hm2 ⊢
              by_cases h6 : env.insertOk (itemCodeOf env hm row)
              · simp only [if_pos h6] at hm1 hm2 ⊢
                have hG2 : itemGroupOf env hm row ∈ db2.groups :=
                  hm2 _ (List.mem_append_right _ (List.mem_singleton.mpr rfl))
                have h52 : itemCodeOf env hm row ∈ db2.items :=
                  hm1 _ (List.mem_append_right _ (List.mem_singleton.mpr rfl))
                simp only [if_pos hG2, if_pos h52]
                exact ⟨by trivial, by trivial⟩
              · simp only [if_neg h6] at hm1 hm2 ⊢
                have hG2 : itemGroupOf env hm row ∈ db2.groups :=
                  hm2 _ (List.mem_append_right _ (List.mem_singleton.mpr rfl))
                have h52 : itemCodeOf env hm row ∉ db2.items := by
                  intro hmem
                  rcases hc1 _ hmem with h | h
                  · exact h5 h
                  · exact h6 h
                simp only [if_pos hG2, if_neg h52, if_neg h6]
                exact ⟨by trivial, by trivial⟩
          · simp only [if_neg h7] at hm1 hm2 ⊢
            have hG2 : itemGroupOf env hm row ∉ db2.groups := by
              intro hmem
              rcases hc2 _ hmem with h | h
              · exact h4 h
              · exact h7 h
            simp only [if_neg hG2, if_neg h7]
            exact ⟨by trivial, by trivial⟩

lemma runItems_second_aux (env : Env) (hm : List (Nat × String)) :
    ∀ (rows : List (Nat × List Cell)) (s1 s2 : ItemsState),
    s2.db = (runItems env hm s1 rows).db →
    (∀ c ∈ s2.db.items, c ∈ s1.db.items ∨ env.insertOk c = true) →
    (∀ g ∈ s2.db.groups, g ∈ s1.db.groups ∨ env.groupCreateOk g = true) →
    (runItems env hm s2 rows).db = s2.db ∧
    (runItems env hm s2 rows).outcomes =
      s2.outcomes ++
        (((runItems env hm s1 rows).outcomes).drop s1.outcomes.length).map promote := by
  intro rows
  induction rows with
  | nil =>
    intro s1 s2 hdb hci hcg
    refine ⟨rfl, ?_⟩
    simp [runItems]
  | cons p ps ih =>
    intro s1 s2 hdb hci hcg
    have hfc1 : runItems env hm s1 (p :: ps) = runItems env hm (itemsStep env hm s1 p) ps := rfl
    have hfc2 : runItems env hm s2 (p :: ps) = runItems env hm (itemsStep env hm s2 p) ps := rfl
    rw [hfc1] at hdb
    rw [hfc1, hfc2]
    have hmono1 : ∀ c ∈ (rowAction env hm s1.db p.1 p.2).2.1.items, c ∈ s2.db.items := by
      intro c hc
      rw [hdb]
      have := (runItems_db_mono env hm ps (itemsStep env hm s1 p)).1 c
      rw [itemsStep_db] at this
      exact this hc
    have hmono2 : ∀ g ∈ (rowAction env hm s1.db p.1 p.2).2.1.groups, g ∈ s2.db.groups := by
      intro g hg
      rw [hdb]
      have := (runItems_db_mono env hm ps (itemsStep env hm s1 p)).2 g
      rw [itemsStep_db] at this
      exact this hg
    have hpair := rowAction_second_run env hm s1.db s2.db p.1 p.2 hmono1 hmono2 hci hcg
    have hs2db : (itemsStep env hm s2 p).db = s2.db := by
      rw [itemsStep_db]
      exact hpair.2
    have hci' : ∀ c ∈ (itemsStep env hm s2 p).db.items,
        c ∈ (itemsStep env hm s1 p).db.items ∨ env.insertOk c = true := by
      intro c hc
      rw [hs2db] at hc
      rcases hci c hc with h | h
      · left
        rw [itemsStep_db]
        exact (rowAction_db_facts env hm s1.db p.1 p.2).1 c h
      · exact Or.inr h
    have hcg' : ∀ g ∈ (itemsStep env hm s2 p).db.groups,
        g ∈ (itemsStep env hm s1 p).db.groups ∨ env.groupCreateOk g = true := by
      intro g hg
      rw [hs2db] at hg
      rcases hcg g hg with h | h
      · left
        rw [itemsStep_db]
        exact (rowAction_db_facts env hm s1.db p.1 p.2).2.1 g h
      · exact Or.inr h
    have hdb' : (itemsStep env hm s2 p).db = (runItems env hm (itemsStep env hm s1 p) ps).db := by
      rw [hs2db, hdb]
    have hihs := ih (itemsStep env hm s1 p) (itemsStep env hm s2 p) hdb' hci' hcg'
    refine ⟨by rw [hihs.1, hs2db], ?_⟩
    rw [hihs.2]
    rcases runItems_outcomes_extend env hm ps (itemsStep env hm s1 p) with ⟨t, ht⟩
    rw [ht, itemsStep_outcomes env hm s1 p, itemsStep_outcomes env hm s2 p, hpair.1]
    have e1 : ((s1.outcomes ++ [(rowAction env hm s1.db p.1 p.2).1]) ++ t).drop
        (s1.outcomes ++ [(rowAction env hm s1.db p.1 p.2).1]).length = t := List.drop_left _ _
    have e2 : ((s1.outcomes ++ [(rowAction env hm s1.db p.1 p.2).1]) ++ t).drop
        s1.outcomes.length = [(rowAction env hm s1.db p.1 p.2).1] ++ t := by
      rw [List.append_assoc]
      exact List.drop_left _ _
    rw [e1, e2]
    simp

/-- A file whose single data row has an item code but no item group. -/
def envC8 : Env :=
  { pf := pfNat, numRepr := fun _ => "", plm_file := true, extension := "csv",
    rows := [[Cell.str "Number"], [Cell.str "A"]],
    defaultUom := fun _ => "Nos", bcNames := [], company := some "TestCo",
    currency := some "INR", appendOk := fun _ => true,
    groupCreateOk := fun _ => true, insertOk := fun _ => true }

/-- The store before the first `envC8` run. -/
def dbC8 : Db := { items := [], groups := [] }

/-- C8 counterexample: running the flat-item import twice on `envC8`'s
file creates nothing on the second run, but the single non-blank row is
logged as *skipped* (missing item group), not as duplicate — the second
run has `Skipped: 1` and `Duplicates: 0`, refuting "every row is logged
as duplicate". -/
theorem import_items_twice_cex :
    ((import_items envC8 ((import_items envC8 dbC8).2)).1.map
        (fun r => (r.created, r.duplicates, r.skipped, r.logs))) =
      Except.ok (0, 0, 1, ["Row 2: skipped A (missing part type / item group)."]) := rfl

/-- C8 (amended): running the flat-item import twice over the same file
creates zero new items on the second run and leaves the store unchanged;
every row created on the first run is logged as duplicate on the second,
while every other row repeats its first-run outcome — the second-run
outcome trace is exactly the first-run trace with `created` promoted to
`duplicate` (so skipped and errored rows are *not* logged as duplicate). -/
theorem import_items_twice (env : Env) (db db1 : Db) (r1 : ItemsResult)
    (h : import_items env db = (Except.ok r1, db1)) :
    (import_items env db1).2 = db1 ∧
    (import_items env db1).1.map (fun r => (r.outcomes, r.created)) =
      Except.ok (r1.outcomes.map promote, 0) := by
  unfold import_items at h ⊢
  by_cases h1 : env.plm_file = false
  · rw [if_pos h1] at h
    exact absurd h (by simp)
  · rw [if_neg h1] at h ⊢
    by_cases h2 : ¬ extOk env
    · rw [if_pos h2] at h
      exact absurd h (by simp)
    · rw [if_neg h2] at h ⊢
      by_cases h3 : env.rows.length < 2
      · rw [if_pos h3] at h
        exact absurd h (by simp)
      · rw [if_neg h3] at h ⊢
        by_cases h4 : ¬ (hmOf env).any (fun p => p.2 == "item_code")
        · rw [if_pos h4] at h
          exact absurd h (by simp)
        · rw [if_neg h4] at h ⊢
          have hsnd := congrArg Prod.snd h
          have hfst := congrArg Prod.fst h
          dsimp only at hsnd hfst
          injection hfst with hrec
          have hdb0 : (itemsInit db1).db =
              (runItems env (hmOf env) (itemsInit db)
                (List.enumFrom 2 (env.rows.drop 1))).db := by
            show db1 = _
            exact hsnd.symm
          have hci0 : ∀ c ∈ (itemsInit db1).db.items,
              c ∈ (itemsInit db).db.items ∨ env.insertOk c = true := by
            intro c hc
            have hc' : c ∈ (runItems env (hmOf env) (itemsInit db)
                (List.enumFrom 2 (env.rows.drop 1))).db.items := by
              rw [hsnd]
              exact hc
            exact (runItems_db_prov env (hmOf env) (List.enumFrom 2 (env.rows.drop 1))
              (itemsInit db)).1 c hc'
          have hcg0 : ∀ g ∈ (itemsInit db1).db.groups,
              g ∈ (itemsInit db).db.groups ∨ env.groupCreateOk g = true := by
            intro g hg
            have hg' : g ∈ (runItems env (hmOf env) (itemsInit db)
                (List.enumFrom 2 (env.rows.drop 1))).db.groups := by
              rw [hsnd]
              exact hg
            exact (runItems_db_prov env (hmOf env) (List.enumFrom 2 (env.rows.drop 1))
              (itemsInit db)).2 g hg'
          have haux := runItems_second_aux env (hmOf env) (List.enumFrom 2 (env.rows.drop 1))
            (itemsInit db) (itemsInit db1) hdb0 hci0 hcg0
          have hdb2 : (runItems env (hmOf env) (itemsInit db1)
              (List.enumFrom 2 (env.rows.drop 1))).db = db1 := haux.1
          have hout2 : (runItems env (hmOf env) (itemsInit db1)
              (List.enumFrom 2 (env.rows.drop 1))).outcomes =
              ((runItems env (hmOf env) (itemsInit db)
                (List.enumFrom 2 (env.rows.drop 1))).outcomes).map promote := by
            have h2x := haux.2
            simpa [itemsInit] using h2x
          have hcr2 : (runItems env (hmOf env) (itemsInit db1)
              (List.enumFrom 2 (env.rows.drop 1))).created = 0 := by
            have hcount := runItems_created_count env (hmOf env)
              (List.enumFrom 2 (env.rows.drop 1)) (itemsInit db1)
            rw [hout2] at hcount
            simpa [itemsInit, count_created_map_promote] using hcount
          constructor
          · show (runItems env (hmOf env) (itemsInit db1)
                (List.enumFrom 2 (env.rows.drop 1))).db = db1
            exact hdb2
          · show Except.ok ((runItems env (hmOf env) (itemsInit db1)
                  (List.enumFrom 2 (env.rows.drop 1))).outcomes,
                (runItems env (hmOf env) (itemsInit db1)
                  (List.enumFrom 2 (env.rows.drop 1))).created) =
              Except.ok (r1.outcomes.map promote, 0)
            rw [hout2, hcr2, ← hrec]

/-- The first-run result on `envC8`'s file: its only data row is skipped
for a missing item group. -/
def r1C8 : ItemsResult :=
  { summary := "Created: 0, Duplicates: 0, Skipped: 1, Errors: 0.",
    log := "Created: 0, Duplicates: 0, Skipped: 1, Errors: 0.\nRow 2: skipped A (missing part type / item group).",
    created := 0, duplicates := 0, skipped := 1, errors := 0,
    logs := ["Row 2: skipped A (missing part type / item group)."],
    outcomes := [RowOutcome.noGroup], docs := [] }

/-- C8 witness: the amended theorem applied to the concrete `envC8` run. -/
theorem import_items_twice_witness :
    (import_items envC8 dbC8).2 = dbC8 ∧
    (import_items envC8 dbC8).1.map (fun r => (r.outcomes, r.created)) =
      Except.ok (r1C8.outcomes.map promote, 0) :=
  import_items_twice envC8 dbC8 dbC8 r1C8 (by rfl)
